import Mathlib

/-
Verification development for the Excel MCP tool server (src/main.py).

The nine tool operations are embedded shallowly:
  * the filesystem is an association list from paths to parsed workbooks
    (only well-formed spreadsheet files are representable, matching the
    scope of the claims);
  * an openpyxl worksheet is the list of its materialised cells: an
    association list from (row, column) 1-based addresses to cell data
    (value, font, fill setting); cells that were never assigned are absent,
    which is what drives the used-range dimensions of openpyxl;
  * pd.read_excel is modelled after the pandas openpyxl reader: it scans
    the used range (min_row..max_row, min_col..max_col), converts empty
    cells to blanks, pops trailing blanks from each row, drops trailing
    all-blank rows, pads the remaining rows to the maximal width, takes
    the first row as the header (blank header cells become Unnamed: i)
    and the rest as data records;
  * pd.DataFrame(list-of-dicts) collects columns in order of first
    appearance across all rows; df.to_excel writes the header row followed
    by the data rows, with missing values written as empty text;
  * str(x) is modelled for text, integers and booleans; a missing value
    rendered through astype(str) becomes the text nan (pandas behaviour);
  * pandas .str.contains(pat, case=False) treats the pattern as a regular
    expression with IGNORECASE; the regex engine is modelled for patterns
    made of literal characters and the dot wildcard, which is all this
    development evaluates it on.
Not modelled (no claim depends on them): float scalars and the numeric
dtype promotion of pandas columns, dtype labels / memory usage / numeric
descriptive statistics of excel_data_summary, duplicate column labels.
-/

namespace ExcelMCP

/-- Scalar cell values: text, integer or boolean. -/
inductive Val where
  | vStr (s : String)
  | vInt (n : Int)
  | vBool (b : Bool)
deriving DecidableEq

/-- Python str() of a scalar value. -/
def Val.pyStr : Val → String
  | .vStr s => s
  | .vInt n => toString n
  | .vBool b => if b then "True" else "False"

/-- An openpyxl Font object; a fresh Font() leaves every attribute unset. -/
structure Font where
  color : Option String := none
  bold : Option Bool := none
  size : Option Nat := none
deriving DecidableEq

/-- The data attached to one materialised cell: its value, font and
    solid-fill background colour (none means no fill was ever applied). -/
structure CellData where
  value : Option Val := none
  font : Font := {}
  fill : Option String := none
deriving DecidableEq

/-- A 1-based (row, column) cell address. -/
abbrev Addr := Nat × Nat

/-- A worksheet: its name and its materialised cells. -/
structure Sheet where
  name : String
  cells : List (Addr × CellData)
deriving DecidableEq

/-- A workbook is its ordered list of sheets. -/
structure Workbook where
  sheets : List Sheet
deriving DecidableEq

/-- The filesystem: spreadsheet files by path. -/
abbrev FS := List (String × Workbook)

/-- Association-list lookup with decidable key equality. -/
def lookupA {α β : Type} [DecidableEq α] : List (α × β) → α → Option β
  | [], _ => none
  | (k, v) :: t, k2 => if k = k2 then some v else lookupA t k2

/-- Association-list update: replaces the binding of the key in place, or
    appends a new binding at the end. -/
def setAssoc {α β : Type} [DecidableEq α] : List (α × β) → α → β → List (α × β)
  | [], k, v => [(k, v)]
  | (k0, v0) :: t, k, v => if k0 = k then (k, v) :: t else (k0, v0) :: setAssoc t k v

/-- Minimum of a list of naturals, none when empty. -/
def natsMin : List Nat → Option Nat
  | [] => none
  | x :: xs =>
    some (match natsMin xs with
      | none => x
      | some m => Nat.min x m)

/-- Maximum of a list of naturals, none when empty. -/
def natsMax : List Nat → Option Nat
  | [] => none
  | x :: xs =>
    some (match natsMax xs with
      | none => x
      | some m => Nat.max x m)

/-- Row coordinates of the materialised cells. -/
def Sheet.rowKeys (s : Sheet) : List Nat := s.cells.map (fun p => p.1.1)

/-- Column coordinates of the materialised cells. -/
def Sheet.colKeys (s : Sheet) : List Nat := s.cells.map (fun p => p.1.2)

/-- openpyxl ws.min_row (1 on a sheet with no cells). -/
def Sheet.minRow (s : Sheet) : Nat := (natsMin s.rowKeys).getD 1

/-- openpyxl ws.max_row (1 on a sheet with no cells). -/
def Sheet.maxRow (s : Sheet) : Nat := (natsMax s.rowKeys).getD 1

/-- openpyxl ws.min_column (1 on a sheet with no cells). -/
def Sheet.minCol (s : Sheet) : Nat := (natsMin s.colKeys).getD 1

/-- openpyxl ws.max_column (1 on a sheet with no cells). -/
def Sheet.maxCol (s : Sheet) : Nat := (natsMax s.colKeys).getD 1

/-- The value stored at an address (none for absent or empty cells). -/
def Sheet.cellAt (s : Sheet) (r c : Nat) : Option Val :=
  match lookupA s.cells (r, c) with
  | some d => d.value
  | none => none

/-- The effective data of a cell: the stored data, or pristine defaults for
    a cell that was never materialised. -/
def effCell (s : Sheet) (a : Addr) : CellData := (lookupA s.cells a).getD {}

/-- Empty-text cells read back as missing values (pandas converts both an
    absent cell and empty text to a blank, which the parser turns to NaN). -/
def blankToNone (v : Option Val) : Option Val :=
  match v with
  | some (.vStr s) => if s = "" then none else some (.vStr s)
  | x => x

/-- Drop the longest suffix whose elements satisfy p. -/
def trimBack {α : Type} (p : α → Bool) (l : List α) : List α :=
  (l.reverse.dropWhile p).reverse

/-- The raw converted values of one used-range row, before trailing-blank
    popping: pandas reads columns min_col..max_col of the row. -/
def Sheet.rawRow (s : Sheet) (r : Nat) : List (Option Val) :=
  (List.range (s.maxCol + 1 - s.minCol)).map (fun j => blankToNone (s.cellAt r (s.minCol + j)))

/-- A pandas DataFrame: ordered column labels and data rows (cells are
    missing-or-scalar). -/
structure DataFrame where
  columns : List String
  rows : List (List (Option Val))
deriving DecidableEq

/-- Header label of column i: the string form of the header cell, or the
    pandas placeholder for a blank header cell. -/
def headerName (i : Nat) : Option Val → String
  | some v => v.pyStr
  | none => "Unnamed: " ++ toString i

/-- Pad a row with missing values up to width w. -/
def padTo (w : Nat) (l : List (Option Val)) : List (Option Val) :=
  l ++ List.replicate (w - l.length) none

/-- Maximal width of a list of rows. -/
def rowsWidth (l : List (List (Option Val))) : Nat := (l.map List.length).foldr Nat.max 0

/-- Build a DataFrame from the trimmed rows: pad every row to the maximal
    width, take the first row as the header and the rest as data. -/
def mkDf : List (List (Option Val)) → DataFrame
  | [] => ⟨[], []⟩
  | hdr0 :: body0 =>
    ⟨((padTo (rowsWidth (hdr0 :: body0)) hdr0).enum).map (fun p => headerName p.1 p.2),
     body0.map (padTo (rowsWidth (hdr0 :: body0)))⟩

/-- pd.read_excel of one worksheet (the pandas openpyxl reader): scan the
    used range, pop trailing blanks per row, drop trailing all-blank rows,
    pad to the maximal width, then split header row from data rows. -/
def pdReadSheet (s : Sheet) : DataFrame :=
  mkDf (trimBack List.isEmpty ((List.range (s.maxRow + 1 - s.minRow)).map
    (fun i => trimBack Option.isNone (s.rawRow (s.minRow + i)))))

/-- Python truthiness of an optional string argument. -/
def strTruthy : Option String → Bool
  | none => false
  | some s => if s = "" then false else true

/-- Python truthiness of an optional integer argument. -/
def natTruthy : Option Nat → Bool
  | none => false
  | some n => if n = 0 then false else true

/-- The ordered sheet names of a workbook (openpyxl wb.sheetnames). -/
def Workbook.sheetNames (wb : Workbook) : List String := wb.sheets.map Sheet.name

/-- Find the sheet with the given name. -/
def findSheetL (n : String) : List Sheet → Option Sheet
  | [] => none
  | s :: ss => if s.name = n then some s else findSheetL n ss

/-- The sheet of a workbook with the given name (openpyxl wb[name]). -/
def Workbook.findSheet (wb : Workbook) (n : String) : Option Sheet := findSheetL n wb.sheets

/-- pd.read_excel with an explicit sheet_name: a missing sheet raises. -/
def pandasReadSheetNamed (wb : Workbook) (n : String) : Except String DataFrame :=
  match wb.findSheet n with
  | some s => .ok (pdReadSheet s)
  | none => .error ("Worksheet named " ++ n ++ " not found")

/-- pd.read_excel without a sheet_name: the first sheet. -/
def pandasReadDefault (wb : Workbook) : Except String DataFrame :=
  match wb.sheets with
  | [] => .error "no sheets in workbook"
  | s :: _ => .ok (pdReadSheet s)

/-- The sheet-selection idiom of read_excel_file and excel_data_summary:
    a truthy sheet_name is read by name, otherwise the first sheet. -/
def pandasReadExcel (wb : Workbook) (sheetName : Option String) : Except String DataFrame :=
  if strTruthy sheetName then pandasReadSheetNamed wb (sheetName.getD "")
  else pandasReadDefault wb

/-- Every operation returns either a success object or an error object
    carrying a single human-readable message field; the caller tells the
    two apart by the presence of the error field. -/
inductive OpResult (α : Type) where
  | ok (a : α)
  | error (msg : String)
deriving DecidableEq

/-- Error message of the file-existence check. -/
def fileNotFoundMsg (p : String) : String := "ファイルが見つかりません: " ++ p

/-- Error message of the sheet-existence check. -/
def sheetNotFoundMsg (n : String) : String := "シート \x27" ++ n ++ "\x27 が見つかりません"

/-- Error message of the sheet-name collision check. -/
def sheetExistsMsg (n : String) : String := "シート \x27" ++ n ++ "\x27 は既に存在します"

/-- Error message of the last-sheet check of delete_excel_sheet. -/
def lastSheetMsg : String := "最後のシートは削除できません"

/-- Error message of the extension check of read_excel_file. -/
def unsupportedFormatMsg : String :=
  "サポートされていないファイル形式です。.xlsx または .xls ファイルを指定してください。"

/-- The generic except-clause wrapper around an underlying failure text. -/
def excMsg (e : String) : String := "エラーが発生しました: " ++ e

/-- Sheet label reported when no sheet name was passed. -/
def defaultSheetLabel : String := "デフォルトシート"

/-- Not-found message of find_excel_row_by_content. -/
def notFoundSearchMsg (v c : String) : String :=
  "\x27" ++ v ++ "\x27 が列 \x27" ++ c ++ "\x27 で見つかりませんでした"

/-- file_path.endswith(suffix). -/
def strEndsWith (s suf : String) : Bool :=
  decide (s.toList.reverse.take suf.toList.length = suf.toList.reverse)

/-- The extension check of the read path. -/
def extOk (p : String) : Bool := strEndsWith p ".xlsx" || strEndsWith p ".xls"

/-- One row as a column-name-to-value mapping (a Python record dict). -/
abbrev PyRecord := List (String × Option Val)

/-- A data record of read_excel_file, tagged with its spreadsheet row
    number (the extra _excel_row_number field). -/
structure RowRecord where
  excelRowNumber : Nat
  fields : PyRecord
deriving DecidableEq

/-- The success object of read_excel_file. -/
structure ReadResult where
  filePath : String
  sheetName : String
  shapeRows : Nat
  shapeCols : Nat
  columns : List String
  data : List RowRecord
  headPreview : List PyRecord
deriving DecidableEq

/-- sheet_name or the default label (Python or-idiom, so empty text also
    falls back to the default). -/
def sheetNameOrDefault : Option String → String
  | none => defaultSheetLabel
  | some s => if s = "" then defaultSheetLabel else s

/-- df.to_dict(records): each row zipped with the column labels. -/
def dfRecords (df : DataFrame) : List PyRecord := df.rows.map (fun r => df.columns.zip r)

/-- Tool read_excel_file. -/
def read_excel_file (fs : FS) (filePath : String) (sheetName : Option String) :
    OpResult ReadResult :=
  match lookupA fs filePath with
  | none => .error (fileNotFoundMsg filePath)
  | some wb =>
    if extOk filePath then
      match pandasReadExcel wb sheetName with
      | .error e => .error (excMsg e)
      | .ok df =>
        .ok { filePath := filePath
              sheetName := sheetNameOrDefault sheetName
              shapeRows := df.rows.length
              shapeCols := df.columns.length
              columns := df.columns
              data := (dfRecords df).enum.map (fun p => ⟨p.1 + 2, p.2⟩)
              headPreview := (dfRecords df).take 5 }
    else .error unsupportedFormatMsg

/-- The success object of list_excel_sheets. -/
structure ListSheetsResult where
  filePath : String
  sheets : List String
  totalSheets : Nat
deriving DecidableEq

/-- Tool list_excel_sheets. -/
def list_excel_sheets (fs : FS) (filePath : String) : OpResult ListSheetsResult :=
  match lookupA fs filePath with
  | none => .error (fileNotFoundMsg filePath)
  | some wb =>
    .ok { filePath := filePath, sheets := wb.sheets.map Sheet.name,
          totalSheets := wb.sheets.length }

/-- Accumulate the keys of one record, keeping first-appearance order. -/
def addKeys (acc : List String) (ks : List String) : List String :=
  ks.foldl (fun a k => if k ∈ a then a else a ++ [k]) acc

/-- pd.DataFrame(list-of-dicts) column order: keys in order of first
    appearance across all rows. -/
def collectCols (data : List PyRecord) : List String :=
  data.foldl (fun acc row => addKeys acc (row.map Prod.fst)) []

/-- pd.DataFrame built from a list of record dicts. -/
def recordsToDf (data : List PyRecord) : DataFrame :=
  let cols := collectCols data
  ⟨cols, data.map (fun row => cols.map (fun c => (lookupA row c).join))⟩

/-- df.empty: true when either axis has length zero. -/
def dfEmpty (df : DataFrame) : Bool := df.rows.length = 0 || df.columns.length = 0

/-- The cells of one written row, starting at the given address. -/
def rowCells : Nat → Nat → List CellData → List (Addr × CellData)
  | _, _, [] => []
  | r, c, d :: ds => ((r, c), d) :: rowCells r (c + 1) ds

/-- The cells of a written rectangular block, starting at the given row,
    column 1. -/
def gridCells : Nat → List (List CellData) → List (Addr × CellData)
  | _, [] => []
  | r, row :: rest => rowCells r 1 row ++ gridCells (r + 1) rest

/-- One written body cell: a missing value is written as empty text
    (the na_rep of df.to_excel). -/
def cellOfVal (v : Option Val) : CellData := { value := some (v.getD (.vStr "")) }

/-- The grid df.to_excel writes: the header row followed by the data rows. -/
def dfGrid (df : DataFrame) : List (List CellData) :=
  (df.columns.map (fun c => ({ value := some (.vStr c) } : CellData)))
    :: df.rows.map (fun row => row.map cellOfVal)

/-- The single sheet produced by writing a DataFrame. -/
def dfToSheet (n : String) (df : DataFrame) : Sheet := ⟨n, gridCells 1 (dfGrid df)⟩

/-- The success object of write_excel_file. -/
structure WriteResult where
  status : String
  filePath : String
  sheetName : String
  rowsWritten : Nat
  columns : List String
deriving DecidableEq

/-- Tool write_excel_file: always creates or fully overwrites the file
    with a single sheet. -/
def write_excel_file (fs : FS) (filePath : String) (data : List PyRecord)
    (sheetName : String) : OpResult WriteResult × FS :=
  let df := recordsToDf data
  (.ok { status := "success", filePath := filePath, sheetName := sheetName,
         rowsWritten := data.length,
         columns := if dfEmpty df then [] else df.columns },
   setAssoc fs filePath ⟨[dfToSheet sheetName df]⟩)

/-- Column letters to a 1-based column index (bijective base 26). -/
def colIndexOf (cs : List Char) : Nat :=
  cs.foldl (fun a ch => a * 26 + (ch.toUpper.toNat - 64)) 0

/-- Decimal digits to a natural number. -/
def digitsVal (cs : List Char) : Nat :=
  cs.foldl (fun a ch => a * 10 + (ch.toNat - 48)) 0

/-- openpyxl cell-coordinate parsing: up to three letters then digits,
    row at least 1; anything else raises. Returns (row, column). -/
def parseCellRef (s : String) : Option Addr :=
  let cs := s.toList
  let ls := cs.takeWhile Char.isAlpha
  let ds := cs.dropWhile Char.isAlpha
  if ls ≠ [] ∧ ds ≠ [] ∧ ls.length ≤ 3 ∧ ds.all Char.isDigit ∧ 1 ≤ digitsVal ds then
    some (digitsVal ds, colIndexOf ls)
  else none

/-- Split a character list at colons. -/
def splitColon : List Char → List (List Char)
  | [] => [[]]
  | c :: t =>
    let r := splitColon t
    if c = ':' then [] :: r else (c :: r.headD []) :: r.tail

/-- Parse a rectangular range expression ref:ref into (r1, c1, r2, c2);
    a single cell reference is not iterable in the source and so is
    rejected here too. -/
def parseRange (s : String) : Option (Nat × Nat × Nat × Nat) :=
  match splitColon s.toList with
  | [a, b] =>
    match parseCellRef (String.mk a), parseCellRef (String.mk b) with
    | some (r1, c1), some (r2, c2) => some (r1, c1, r2, c2)
    | _, _ => none
  | _ => none

/-- The success object of update_excel_cell. -/
structure UpdateResult where
  status : String
  filePath : String
  sheetName : String
  cell : String
  value : Option Val
deriving DecidableEq

/-- Assigning a value to a cell materialises the cell and keeps its
    existing style. -/
def Sheet.setValue (s : Sheet) (a : Addr) (v : Option Val) : Sheet :=
  ⟨s.name, setAssoc s.cells a { (lookupA s.cells a).getD {} with value := v }⟩

/-- Apply f to the first sheet with the given name. -/
def updateFirstSheet (n : String) (f : Sheet → Sheet) : List Sheet → List Sheet
  | [] => []
  | s :: ss => if s.name = n then f s :: ss else s :: updateFirstSheet n f ss

/-- Mutate the named sheet of a workbook. -/
def Workbook.updateSheet (wb : Workbook) (n : String) (f : Sheet → Sheet) : Workbook :=
  ⟨updateFirstSheet n f wb.sheets⟩

/-- Tool update_excel_cell. -/
def update_excel_cell (fs : FS) (filePath sheetName : String) (row : Nat)
    (column : String) (value : Option Val) : OpResult UpdateResult × FS :=
  match lookupA fs filePath with
  | none => (.error (fileNotFoundMsg filePath), fs)
  | some wb =>
    if sheetName ∈ wb.sheets.map Sheet.name then
      let addr := column ++ toString row
      match parseCellRef addr with
      | none => (.error (excMsg ("invalid cell coordinate " ++ addr)), fs)
      | some a =>
        (.ok { status := "success", filePath := filePath, sheetName := sheetName,
               cell := addr, value := value },
         setAssoc fs filePath (wb.updateSheet sheetName (fun s => s.setValue a value)))
    else (.error (sheetNotFoundMsg sheetName), fs)

/-- The success object of format_excel_cells. -/
structure FormatResult where
  status : String
  filePath : String
  sheetName : String
  cellRange : String
  formattingApplied : Bool
deriving DecidableEq

/-- Whether any font keyword is collected (truthiness of font_color and
    font_size, the bold flag itself). -/
def fontSupplied (fontColor : Option String) (bold : Bool) (fontSize : Option Nat) : Bool :=
  strTruthy fontColor || bold || natTruthy fontSize

/-- Font(**font_kwargs): a fresh font carrying exactly the collected
    keywords; every other attribute is left at its pristine default. -/
def mkFont (fontColor : Option String) (bold : Bool) (fontSize : Option Nat) : Font :=
  { color := if strTruthy fontColor then fontColor else none
    bold := if bold then some true else none
    size := if natTruthy fontSize then fontSize else none }

/-- The per-cell effect of the formatting loop body. -/
def applyFmt (fontColor bgColor : Option String) (bold : Bool) (fontSize : Option Nat)
    (d : CellData) : CellData :=
  { value := d.value
    font := if fontSupplied fontColor bold fontSize then mkFont fontColor bold fontSize else d.font
    fill := if strTruthy bgColor then bgColor else d.fill }

/-- Format one cell of the range (accessing the range materialises it). -/
def Sheet.formatCell (s : Sheet) (a : Addr) (fc bg : Option String) (bold : Bool)
    (fsz : Option Nat) : Sheet :=
  ⟨s.name, setAssoc s.cells a (applyFmt fc bg bold fsz (effCell s a))⟩

/-- The addresses of a rectangular range, row-major. -/
def rangeAddrs (r1 c1 r2 c2 : Nat) : List Addr :=
  ((List.range (r2 + 1 - r1)).map
    (fun i => (List.range (c2 + 1 - c1)).map (fun j => (r1 + i, c1 + j)))).flatten

/-- Tool format_excel_cells. -/
def format_excel_cells (fs : FS) (filePath sheetName cellRange : String)
    (fontColor bgColor : Option String) (bold : Bool) (fontSize : Option Nat) :
    OpResult FormatResult × FS :=
  match lookupA fs filePath with
  | none => (.error (fileNotFoundMsg filePath), fs)
  | some wb =>
    if sheetName ∈ wb.sheets.map Sheet.name then
      match parseRange cellRange with
      | none => (.error (excMsg ("invalid range " ++ cellRange)), fs)
      | some (r1, c1, r2, c2) =>
        (.ok { status := "success", filePath := filePath, sheetName := sheetName,
               cellRange := cellRange, formattingApplied := true },
         setAssoc fs filePath (wb.updateSheet sheetName (fun s =>
           (rangeAddrs r1 c1 r2 c2).foldl
             (fun sh a => sh.formatCell a fontColor bgColor bold fontSize) s)))
    else (.error (sheetNotFoundMsg sheetName), fs)

/-- The success object of add_excel_sheet. -/
structure AddSheetResult where
  status : String
  filePath : String
  sheetName : String
  rowsAdded : Nat
deriving DecidableEq

/-- openpyxl.Workbook(): a fresh document with its default single sheet
    named Sheet. -/
def freshWorkbook : Workbook := ⟨[⟨"Sheet", []⟩]⟩

/-- Tool add_excel_sheet: a missing file is first replaced by a fresh
    in-memory workbook; the collision check then runs against it. -/
def add_excel_sheet (fs : FS) (filePath sheetName : String)
    (data : Option (List PyRecord)) : OpResult AddSheetResult × FS :=
  let wb := (lookupA fs filePath).getD freshWorkbook
  if sheetName ∈ wb.sheets.map Sheet.name then (.error (sheetExistsMsg sheetName), fs)
  else
    let newSheet : Sheet :=
      match data with
      | some d => if d = [] then ⟨sheetName, []⟩ else ⟨sheetName, gridCells 1 (dfGrid (recordsToDf d))⟩
      | none => ⟨sheetName, []⟩
    (.ok { status := "success", filePath := filePath, sheetName := sheetName,
           rowsAdded := (data.getD []).length },
     setAssoc fs filePath ⟨wb.sheets ++ [newSheet]⟩)

/-- The success object of delete_excel_sheet. -/
structure DeleteResult where
  status : String
  filePath : String
  deletedSheet : String
  remainingSheets : List String
deriving DecidableEq

/-- Remove the first sheet with the given name. -/
def removeFirstSheet (n : String) : List Sheet → List Sheet
  | [] => []
  | s :: ss => if s.name = n then ss else s :: removeFirstSheet n ss

/-- Tool delete_excel_sheet. -/
def delete_excel_sheet (fs : FS) (filePath sheetName : String) :
    OpResult DeleteResult × FS :=
  match lookupA fs filePath with
  | none => (.error (fileNotFoundMsg filePath), fs)
  | some wb =>
    if sheetName ∈ wb.sheets.map Sheet.name then
      if wb.sheets.length = 1 then (.error lastSheetMsg, fs)
      else
        (.ok { status := "success", filePath := filePath, deletedSheet := sheetName,
               remainingSheets := (removeFirstSheet sheetName wb.sheets).map Sheet.name },
         setAssoc fs filePath ⟨removeFirstSheet sheetName wb.sheets⟩)
    else (.error (sheetNotFoundMsg sheetName), fs)

/-- The success object of excel_data_summary. The dtype labels, memory
    usage and float descriptive statistics of the source are not modelled;
    no claim inspects them. -/
structure SummaryResult where
  filePath : String
  sheetName : String
  shapeRows : Nat
  shapeCols : Nat
  columns : List String
  nullCounts : List (String × Nat)
deriving DecidableEq

/-- Per-column count of missing values (df.isnull().sum()). -/
def dfNullCounts (df : DataFrame) : List (String × Nat) :=
  df.columns.enum.map
    (fun p => (p.2, (df.rows.filter (fun r => (r.getD p.1 none).isNone)).length))

/-- Tool excel_data_summary. -/
def excel_data_summary (fs : FS) (filePath : String) (sheetName : Option String) :
    OpResult SummaryResult :=
  match lookupA fs filePath with
  | none => .error (fileNotFoundMsg filePath)
  | some wb =>
    match pandasReadExcel wb sheetName with
    | .error e => .error (excMsg e)
    | .ok df =>
      .ok { filePath := filePath, sheetName := sheetNameOrDefault sheetName,
            shapeRows := df.rows.length, shapeCols := df.columns.length,
            columns := df.columns, nullCounts := dfNullCounts df }

/-- Series.astype(str) element conversion: a missing value becomes the
    text nan. -/
def cellPyStr : Option Val → String
  | none => "nan"
  | some v => v.pyStr

/-- One regex pattern character against one subject character, with
    IGNORECASE: a dot matches anything, a literal matches up to case. -/
def charMatch (p c : Char) : Bool := p == '.' || p.toLower == c.toLower

/-- Match the whole pattern at the start of the subject. -/
def matchHere : List Char → List Char → Bool
  | [], _ => true
  | _ :: _, [] => false
  | p :: ps, c :: cs => charMatch p c && matchHere ps cs

/-- re.search: try the pattern at every start position. -/
def searchFrom (pat : List Char) : List Char → Bool
  | [] => matchHere pat []
  | c :: cs => matchHere pat (c :: cs) || searchFrom pat cs

/-- Series.str.contains(pat, case=False) on one element: a regex search
    with IGNORECASE (modelled for literal characters and the dot wildcard). -/
def reSearch (pat s : String) : Bool := searchFrom pat.toList s.toList

/-- Whether one cell of the searched column matches: the cell is first
    rendered through astype(str), so a missing value is the text nan. -/
def rowMatches (searchValue : String) (cell : Option Val) : Bool :=
  reSearch searchValue (cellPyStr cell)

/-- What the specification describes instead: a plain case-insensitive
    substring test (the pattern taken literally). Stated only to be
    compared against the regex behaviour of the source. -/
def specSubstringCI (needle hay : String) : Bool :=
  decide ((needle.toList.map Char.toLower).IsInfix (hay.toList.map Char.toLower))

/-- One match entry of find_excel_row_by_content. -/
structure FindMatch where
  excelRowNumber : Nat
  pandasIndex : Nat
  rowData : PyRecord
deriving DecidableEq

/-- The success object of find_excel_row_by_content: either a found result
    with its matches or a not-found result with a message. -/
inductive FindResult where
  | found (searchColumn searchValue : String) (matchList : List FindMatch)
      (totalMatches : Nat)
  | notFound (message : String)
deriving DecidableEq

/-- Index of a column label. -/
def idxOf? (n : String) : List String → Option Nat
  | [] => none
  | c :: cs => if c = n then some 0 else (idxOf? n cs).map (· + 1)

/-- The (position, row) pairs of the rows whose searched-column cell
    matches. -/
def matchedRows (df : DataFrame) (j : Nat) (v : String) : List (Nat × List (Option Val)) :=
  df.rows.enum.filter (fun p => rowMatches v (p.2.getD j none))

/-- Tool find_excel_row_by_content. -/
def find_excel_row_by_content (fs : FS) (filePath sheetName searchColumn searchValue : String) :
    OpResult FindResult :=
  match lookupA fs filePath with
  | none => .error (fileNotFoundMsg filePath)
  | some wb =>
    match pandasReadSheetNamed wb sheetName with
    | .error e => .error (excMsg e)
    | .ok df =>
      match idxOf? searchColumn df.columns with
      | none => .error (excMsg searchColumn)
      | some j =>
        let ms := matchedRows df j searchValue
        if ms = [] then .ok (.notFound (notFoundSearchMsg searchValue searchColumn))
        else
          .ok (.found searchColumn searchValue
            (ms.map (fun p => ⟨p.1 + 2, p.1, df.columns.zip p.2⟩)) ms.length)

/-! ### Concrete inputs used by counterexamples and witnesses -/

/-- Concrete file with one empty sheet, for the C3 counterexample. -/
def fsC3 : FS := [("t.xlsx", ⟨[⟨"S", []⟩]⟩)]

/-- Concrete file for the C1 counterexample: cell A1 of sheet S already
    carries a bold, size-20 font. -/
def fsC1 : FS :=
  [("t.xlsx", ⟨[⟨"S", [((1, 1), ⟨some (.vStr "x"), ⟨none, some true, some 20⟩, none⟩)]⟩]⟩)]

/-- The font of one cell of one sheet of one file. -/
def fontAt (fs : FS) (path n : String) (a : Addr) : Option Font :=
  ((lookupA fs path).bind (fun wb => wb.findSheet n)).map (fun s => (effCell s a).font)

/-- Concrete file for the C8 counterexample. -/
def fsC8 : FS := [("t.xlsx", ⟨[⟨"S", [((1, 1), ⟨some (.vStr "x"), {}, none⟩)]⟩]⟩)]

/-- Concrete searched sheet: columns name and note; data row 2 holds
    (Bob, y), data row 3 holds a missing name and the note x. -/
def sheet5 : Sheet :=
  ⟨"S", gridCells 1
    [[⟨some (.vStr "name"), {}, none⟩, ⟨some (.vStr "note"), {}, none⟩],
     [⟨some (.vStr "Bob"), {}, none⟩, ⟨some (.vStr "y"), {}, none⟩],
     [⟨none, {}, none⟩, ⟨some (.vStr "x"), {}, none⟩]]⟩

/-- Concrete file for the C5 counterexample. -/
def fs5 : FS := [("t.xlsx", ⟨[sheet5]⟩)]

/-- Second concrete file for the C5 counterexample: one column col with
    the single value xyz. -/
def fs5b : FS :=
  [("u.xlsx", ⟨[⟨"S", gridCells 1
    [[⟨some (.vStr "col"), {}, none⟩], [⟨some (.vStr "xyz"), {}, none⟩]]⟩]⟩)]

/-- The column list of a write result, when it succeeded. -/
def writeColumns (r : OpResult WriteResult) : Option (List String) :=
  match r with
  | .ok w => some w.columns
  | .error _ => none

/-- A ragged Record Set: the second row introduces a key absent from the
    first row. -/
def raggedData : List PyRecord := [[("a", some (.vStr "x"))], [("b", some (.vStr "y"))]]

/-- The shape of a read result, when it succeeded. -/
def readShape (r : OpResult ReadResult) : Option (Nat × List String) :=
  match r with
  | .ok d => some (d.shapeRows, d.columns)
  | .error _ => none


/-! ### General lemmas about the helper functions -/

theorem lookupA_setAssoc_self {α β : Type} [DecidableEq α] (l : List (α × β)) (k : α) (v : β) :
    lookupA (setAssoc l k v) k = some v := by
  induction l with
  | nil => simp [setAssoc, lookupA]
  | cons h t ih =>
    obtain ⟨k0, v0⟩ := h
    by_cases hk : k0 = k
    · subst hk; simp [setAssoc, lookupA]
    · simp [setAssoc, hk, lookupA, ih]

theorem lookupA_setAssoc_ne {α β : Type} [DecidableEq α] (l : List (α × β)) (k k2 : α) (v : β)
    (h : k ≠ k2) : lookupA (setAssoc l k v) k2 = lookupA l k2 := by
  induction l with
  | nil => simp [setAssoc, lookupA, h]
  | cons hd t ih =>
    obtain ⟨k0, v0⟩ := hd
    by_cases hk : k0 = k
    · subst hk; simp [setAssoc, lookupA, h]
    · simp [setAssoc, hk, lookupA, ih]

theorem map_fst_setAssoc {α β : Type} [DecidableEq α] (l : List (α × β)) (k : α) (v : β) :
    (setAssoc l k v).map Prod.fst = l.map Prod.fst ∨
      (setAssoc l k v).map Prod.fst = l.map Prod.fst ++ [k] := by
  induction l with
  | nil => right; simp [setAssoc]
  | cons hd t ih =>
    obtain ⟨k0, v0⟩ := hd
    by_cases hk : k0 = k
    · subst hk; left; simp [setAssoc]
    · rcases ih with h | h
      · left; simp [setAssoc, hk, h]
      · right; simp [setAssoc, hk, h]

theorem natsMin_concat (l : List Nat) (x : Nat) :
    natsMin (l ++ [x]) = some (match natsMin l with
      | none => x
      | some m => Nat.min m x) := by
  induction l with
  | nil => simp [natsMin]
  | cons h t ih =>
    cases ht : natsMin t with
    | none =>
      simp only [ht] at ih
      simp only [List.cons_append, natsMin, List.append_eq, ih, ht]
    | some m =>
      simp only [ht] at ih
      simp only [List.cons_append, natsMin, List.append_eq, ih, ht]
      simp [min_assoc]

theorem natsMax_concat (l : List Nat) (x : Nat) :
    natsMax (l ++ [x]) = some (match natsMax l with
      | none => x
      | some m => Nat.max m x) := by
  induction l with
  | nil => simp [natsMax]
  | cons h t ih =>
    cases ht : natsMax t with
    | none =>
      simp only [ht] at ih
      simp only [List.cons_append, natsMax, List.append_eq, ih, ht]
    | some m =>
      simp only [ht] at ih
      simp only [List.cons_append, natsMax, List.append_eq, ih, ht]
      simp [max_assoc]

theorem natsMin_mem_ge (l : List Nat) (x : Nat) (hx : x ∈ l) :
    ∃ m, natsMin l = some m ∧ m ≤ x := by
  induction l with
  | nil => cases hx
  | cons h t ih =>
    rcases List.mem_cons.mp hx with rfl | hmem
    · refine ⟨_, rfl, ?_⟩
      cases ht : natsMin t <;> simp [Nat.min_le_left]
    · obtain ⟨m, hm, hle⟩ := ih hmem
      refine ⟨_, rfl, ?_⟩
      rw [hm]
      exact le_trans (Nat.min_le_right h m) hle

theorem natsMax_mem_le (l : List Nat) (x : Nat) (hx : x ∈ l) :
    ∃ m, natsMax l = some m ∧ x ≤ m := by
  induction l with
  | nil => cases hx
  | cons h t ih =>
    rcases List.mem_cons.mp hx with rfl | hmem
    · refine ⟨_, rfl, ?_⟩
      cases ht : natsMax t <;> simp [Nat.le_max_left]
    · obtain ⟨m, hm, hle⟩ := ih hmem
      refine ⟨_, rfl, ?_⟩
      rw [hm]
      exact le_trans hle (Nat.le_max_right h m)

theorem trimBack_getElem? {α : Type} (p : α → Bool) (l : List α) (i : Nat) (x : α)
    (hx : l[i]? = some x) (hpx : p x = false) : (trimBack p l)[i]? = some x := by
  induction l using List.reverseRecOn with
  | nil => simp at hx
  | append_singleton t a ih =>
    cases hpa : p a with
    | true =>
      have hta : trimBack p (t ++ [a]) = trimBack p t := by
        simp [trimBack, List.dropWhile_cons, hpa]
      rw [hta]
      have hi : i < t.length := by
        rcases Nat.lt_trichotomy i t.length with h | h | h
        · exact h
        · subst h
          rw [List.getElem?_concat_length] at hx
          cases hx
          rw [hpa] at hpx; cases hpx
        · exfalso
          have : (t ++ [a])[i]? = none := by
            apply List.getElem?_eq_none
            simp; omega
          rw [this] at hx; cases hx
      rw [List.getElem?_append, if_pos hi] at hx
      exact ih hx
    | false =>
      have hta : trimBack p (t ++ [a]) = t ++ [a] := by
        simp [trimBack, List.dropWhile_cons, hpa]
      rw [hta]; exact hx

theorem trimBack_eq_self_of_all {α : Type} (p : α → Bool) (l : List α)
    (h : ∀ x ∈ l, p x = false) : trimBack p l = l := by
  cases l using List.reverseRecOn with
  | nil => simp [trimBack]
  | append_singleton t a =>
    have hpa : p a = false := h a (by simp)
    simp [trimBack, List.dropWhile_cons, hpa]

theorem trimBack_eq_self_of_getLast {α : Type} (p : α → Bool) (l : List α) (x : α)
    (hl : l.getLast? = some x) (hpx : p x = false) : trimBack p l = l := by
  cases l using List.reverseRecOn with
  | nil => simp at hl
  | append_singleton t a =>
    rw [List.getLast?_concat] at hl
    cases hl
    simp [trimBack, List.dropWhile_cons, hpx]

theorem dropWhileLengthLe {α : Type} (p : α → Bool) (l : List α) :
    (l.dropWhile p).length ≤ l.length := by
  induction l with
  | nil => simp
  | cons a t ih =>
    rw [List.dropWhile_cons]
    split
    · exact le_trans ih (Nat.le_succ _)
    · simp

theorem trimBack_length_le {α : Type} (p : α → Bool) (l : List α) :
    (trimBack p l).length ≤ l.length := by
  have := dropWhileLengthLe p l.reverse
  simpa [trimBack] using this

theorem le_foldrMax (l : List Nat) (x : Nat) (hx : x ∈ l) : x ≤ l.foldr Nat.max 0 := by
  induction l with
  | nil => cases hx
  | cons h t ih =>
    rcases List.mem_cons.mp hx with rfl | hmem
    · exact Nat.le_max_left _ _
    · exact le_trans (ih hmem) (Nat.le_max_right _ _)

theorem foldrMax_le (l : List Nat) (w : Nat) (hall : ∀ x ∈ l, x ≤ w) :
    l.foldr Nat.max 0 ≤ w := by
  induction l with
  | nil => simp
  | cons h t ih =>
    simp only [List.foldr]
    exact Nat.max_le.mpr ⟨hall h (by simp), ih (fun x hx => hall x (by simp [hx]))⟩

theorem foldrMax_eq (l : List Nat) (w : Nat) (hw : w ∈ l) (hall : ∀ x ∈ l, x ≤ w) :
    l.foldr Nat.max 0 = w :=
  Nat.le_antisymm (foldrMax_le l w hall) (le_foldrMax l w hw)

theorem getElem?_zip {α β : Type} (as : List α) (bs : List β) (i : Nat) (a : α) (b : β)
    (ha : as[i]? = some a) (hb : bs[i]? = some b) : (as.zip bs)[i]? = some (a, b) := by
  induction as generalizing bs i with
  | nil => simp at ha
  | cons x xs ih =>
    cases bs with
    | nil => simp at hb
    | cons y ys =>
      cases i with
      | zero =>
        simp at ha hb
        simp [List.zip_cons_cons, ha, hb]
      | succ n =>
        simp at ha hb
        simpa [List.zip_cons_cons] using ih ys n ha hb

theorem memOfGetElem? {α : Type} (l : List α) (i : Nat) (x : α) (h : l[i]? = some x) :
    x ∈ l := by
  induction l generalizing i with
  | nil => simp at h
  | cons a t ih =>
    cases i with
    | zero => simp at h; simp [h]
    | succ n => simp at h; exact List.mem_cons_of_mem _ (ih n h)

theorem isEmpty_false_of_len {α : Type} (l : List α) (h : 0 < l.length) :
    l.isEmpty = false := by
  cases l with
  | nil => simp at h
  | cons a t => simp

theorem enumFrom_getElem? {α : Type} (k : Nat) (l : List α) (i : Nat) :
    (List.enumFrom k l)[i]? = (l[i]?).map (fun a => (k + i, a)) := by
  induction l generalizing k i with
  | nil => simp
  | cons a t ih =>
    cases i with
    | zero => simp [List.enumFrom]
    | succ n =>
      simp only [List.enumFrom, List.getElem?_cons_succ, ih]
      have harith : k + 1 + n = k + (n + 1) := by omega
      rw [harith]

theorem enum_getElem? {α : Type} (l : List α) (i : Nat) :
    (l.enum)[i]? = (l[i]?).map (fun a => (i, a)) := by
  have := enumFrom_getElem? 0 l i
  simp only [Nat.zero_add] at this
  exact this

/-! ### Worksheet dimensions and cell access -/

theorem natsMin_some_of_ne_nil (l : List Nat) (h : l ≠ []) : ∃ m, natsMin l = some m := by
  cases l with
  | nil => cases h rfl
  | cons x xs => exact ⟨_, rfl⟩

theorem mem_map_fst_setAssoc {α β : Type} [DecidableEq α] (l : List (α × β)) (k : α) (v : β) :
    k ∈ (setAssoc l k v).map Prod.fst := by
  induction l with
  | nil => simp [setAssoc]
  | cons hd t ih =>
    obtain ⟨k0, v0⟩ := hd
    by_cases hk : k0 = k
    · subst hk; simp [setAssoc]
    · simp only [setAssoc, if_neg hk, List.map_cons, List.mem_cons]
      exact Or.inr ih

theorem rowKeys_eq (s : Sheet) : s.rowKeys = (s.cells.map Prod.fst).map Prod.fst := by
  simp [Sheet.rowKeys, List.map_map, Function.comp]

theorem colKeys_eq (s : Sheet) : s.colKeys = (s.cells.map Prod.fst).map Prod.snd := by
  simp [Sheet.colKeys, List.map_map, Function.comp]

theorem cellAt_setValue_self (s : Sheet) (a : Addr) (v : Option Val) :
    (s.setValue a v).cellAt a.1 a.2 = v := by
  have he : ((a.1, a.2) : Addr) = a := rfl
  simp [Sheet.cellAt, Sheet.setValue, he, lookupA_setAssoc_self]

theorem rowKeys_ne_nil (s : Sheet) (h : s.cells ≠ []) : s.rowKeys ≠ [] := by
  intro h2
  apply h
  rw [Sheet.rowKeys] at h2
  exact List.map_eq_nil_iff.mp h2

theorem colKeys_ne_nil (s : Sheet) (h : s.cells ≠ []) : s.colKeys ≠ [] := by
  intro h2
  apply h
  rw [Sheet.colKeys] at h2
  exact List.map_eq_nil_iff.mp h2

theorem minRow_setValue (s : Sheet) (a : Addr) (v : Option Val)
    (hne : s.cells ≠ []) (h1 : s.minRow = 1) (ha : 1 ≤ a.1) :
    (s.setValue a v).minRow = 1 := by
  obtain ⟨m, hm⟩ := natsMin_some_of_ne_nil _ (rowKeys_ne_nil s hne)
  have hm1 : m = 1 := by
    rw [Sheet.minRow, hm] at h1
    simpa using h1
  subst hm1
  rcases map_fst_setAssoc s.cells a { (lookupA s.cells a).getD {} with value := v } with heq | heq
  · have h2 : (s.setValue a v).rowKeys = s.rowKeys := by
      rw [rowKeys_eq, rowKeys_eq]
      show ((setAssoc s.cells a _).map Prod.fst).map Prod.fst = _
      rw [heq]
    rw [Sheet.minRow, h2, hm]
    rfl
  · have h2 : (s.setValue a v).rowKeys = s.rowKeys ++ [a.1] := by
      rw [rowKeys_eq, rowKeys_eq]
      show ((setAssoc s.cells a _).map Prod.fst).map Prod.fst = _
      rw [heq, List.map_append]
      rfl
    rw [Sheet.minRow, h2, natsMin_concat, hm]
    simp [Nat.min_eq_left ha]

theorem minCol_setValue (s : Sheet) (a : Addr) (v : Option Val)
    (hne : s.cells ≠ []) (h1 : s.minCol = 1) (ha : 1 ≤ a.2) :
    (s.setValue a v).minCol = 1 := by
  obtain ⟨m, hm⟩ := natsMin_some_of_ne_nil _ (colKeys_ne_nil s hne)
  have hm1 : m = 1 := by
    rw [Sheet.minCol, hm] at h1
    simpa using h1
  subst hm1
  rcases map_fst_setAssoc s.cells a { (lookupA s.cells a).getD {} with value := v } with heq | heq
  · have h2 : (s.setValue a v).colKeys = s.colKeys := by
      rw [colKeys_eq, colKeys_eq]
      show ((setAssoc s.cells a _).map Prod.fst).map Prod.snd = _
      rw [heq]
    rw [Sheet.minCol, h2, hm]
    rfl
  · have h2 : (s.setValue a v).colKeys = s.colKeys ++ [a.2] := by
      rw [colKeys_eq, colKeys_eq]
      show ((setAssoc s.cells a _).map Prod.fst).map Prod.snd = _
      rw [heq, List.map_append]
      rfl
    rw [Sheet.minCol, h2, natsMin_concat, hm]
    simp [Nat.min_eq_left ha]

theorem maxRow_setValue_ge (s : Sheet) (a : Addr) (v : Option Val) :
    a.1 ≤ (s.setValue a v).maxRow := by
  have hmem : a.1 ∈ (s.setValue a v).rowKeys := by
    rw [rowKeys_eq]
    exact List.mem_map_of_mem _ (mem_map_fst_setAssoc _ _ _)
  obtain ⟨m, hm, hle⟩ := natsMax_mem_le _ _ hmem
  rw [Sheet.maxRow, hm]
  exact hle

theorem maxCol_setValue_ge (s : Sheet) (a : Addr) (v : Option Val) :
    a.2 ≤ (s.setValue a v).maxCol := by
  have hmem : a.2 ∈ (s.setValue a v).colKeys := by
    rw [colKeys_eq]
    exact List.mem_map_of_mem _ (mem_map_fst_setAssoc _ _ _)
  obtain ⟨m, hm, hle⟩ := natsMax_mem_le _ _ hmem
  rw [Sheet.maxCol, hm]
  exact hle

/-- Central reading lemma: on a sheet whose used range starts at row 1,
    column 1 (a tabular sheet with its header in place), a non-blank value
    in data row r, column c surfaces in the parsed DataFrame at data row
    r - 2, column position c - 1. -/
theorem pdRead_data_cell (s : Sheet) (r c : Nat) (v : Val)
    (hmin : s.minRow = 1) (hminc : s.minCol = 1) (hr : 2 ≤ r) (hc : 1 ≤ c)
    (hrm : r ≤ s.maxRow) (hcm : c ≤ s.maxCol)
    (hcell : blankToNone (s.cellAt r c) = some v) :
    ∃ row, (pdReadSheet s).rows[r - 2]? = some row ∧ row[c - 1]? = some (some v) ∧
      c - 1 < (pdReadSheet s).columns.length := by
  have hraw : (s.rawRow r)[c - 1]? = some (some v) := by
    rw [Sheet.rawRow, List.getElem?_map, List.getElem?_range (by omega)]
    have harg : s.minCol + (c - 1) = c := by omega
    rw [Option.map_some', harg, hcell]
  set T := trimBack Option.isNone (s.rawRow r) with hT
  have hTc : T[c - 1]? = some (some v) := trimBack_getElem? _ _ _ _ hraw (by simp)
  have hTlen : c - 1 < T.length := by
    rcases Nat.lt_or_ge (c - 1) T.length with h | h
    · exact h
    · rw [List.getElem?_eq_none h] at hTc; cases hTc
  have hrows0 : ((List.range (s.maxRow + 1 - s.minRow)).map
      (fun i => trimBack Option.isNone (s.rawRow (s.minRow + i))))[r - 1]? = some T := by
    rw [List.getElem?_map, List.getElem?_range (by omega)]
    have harg : s.minRow + (r - 1) = r := by omega
    rw [Option.map_some', harg]
  have hrows1 : (trimBack List.isEmpty ((List.range (s.maxRow + 1 - s.minRow)).map
      (fun i => trimBack Option.isNone (s.rawRow (s.minRow + i)))))[r - 1]? = some T :=
    trimBack_getElem? _ _ _ _ hrows0 (isEmpty_false_of_len _ (by omega))
  obtain ⟨hdr0, body0, heq⟩ : ∃ h0 b0, trimBack List.isEmpty
      ((List.range (s.maxRow + 1 - s.minRow)).map
        (fun i => trimBack Option.isNone (s.rawRow (s.minRow + i)))) = h0 :: b0 := by
    cases hq : trimBack List.isEmpty ((List.range (s.maxRow + 1 - s.minRow)).map
        (fun i => trimBack Option.isNone (s.rawRow (s.minRow + i)))) with
    | nil => rw [hq] at hrows1; simp at hrows1
    | cons h0 b0 => exact ⟨h0, b0, rfl⟩
  have hpd : pdReadSheet s = mkDf (hdr0 :: body0) := by
    rw [pdReadSheet, heq]
  have hTmem : T ∈ hdr0 :: body0 := by
    rw [← heq]
    exact memOfGetElem? _ _ _ hrows1
  have hTw : T.length ≤ rowsWidth (hdr0 :: body0) := by
    rw [rowsWidth]
    exact le_foldrMax _ _ (List.mem_map_of_mem _ hTmem)
  have hbody : body0[r - 2]? = some T := by
    have h21 : r - 1 = (r - 2) + 1 := by omega
    rw [h21, heq] at hrows1
    simpa using hrows1
  refine ⟨padTo (rowsWidth (hdr0 :: body0)) T, ?_, ?_, ?_⟩
  · rw [hpd]
    show (body0.map (padTo (rowsWidth (hdr0 :: body0))))[r - 2]? = _
    rw [List.getElem?_map, hbody, Option.map_some']
  · rw [padTo, List.getElem?_append]
    rw [if_pos hTlen]
    exact hTc
  · rw [hpd]
    show c - 1 < (((padTo (rowsWidth (hdr0 :: body0)) hdr0).enum).map
      (fun p => headerName p.1 p.2)).length
    rw [List.length_map, List.enum_length, padTo, List.length_append, List.length_replicate]
    omega

/-! ### Operation-level helper lemmas -/

theorem strTruthy_some_of_ne (n : String) (h : n ≠ "") : strTruthy (some n) = true := by
  simp [strTruthy, h]

theorem findSheetL_name (n : String) (l : List Sheet) (s : Sheet)
    (h : findSheetL n l = some s) : s.name = n ∧ n ∈ l.map Sheet.name := by
  induction l with
  | nil => simp [findSheetL] at h
  | cons s0 t ih =>
    by_cases h0 : s0.name = n
    · rw [findSheetL, if_pos h0] at h
      cases h
      exact ⟨h0, by simp [h0]⟩
    · rw [findSheetL, if_neg h0] at h
      obtain ⟨h1, h2⟩ := ih h
      exact ⟨h1, by simp [h2]⟩

theorem findSheetL_updateFirst (n : String) (f : Sheet → Sheet) (l : List Sheet)
    (hf : ∀ s, (f s).name = s.name) :
    findSheetL n (updateFirstSheet n f l) = (findSheetL n l).map f := by
  induction l with
  | nil => simp [findSheetL, updateFirstSheet]
  | cons s0 t ih =>
    by_cases h0 : s0.name = n
    · simp [updateFirstSheet, findSheetL, h0, hf]
    · simp [updateFirstSheet, findSheetL, h0, ih]

theorem update_ok (fs : FS) (path n column : String) (row : Nat) (value : Option Val)
    (wb : Workbook) (a : Addr)
    (hfs : lookupA fs path = some wb)
    (hmem : n ∈ wb.sheets.map Sheet.name)
    (hparse : parseCellRef (column ++ toString row) = some a) :
    update_excel_cell fs path n row column value =
      (.ok ⟨"success", path, n, column ++ toString row, value⟩,
       setAssoc fs path (wb.updateSheet n (fun s => s.setValue a value))) := by
  rw [update_excel_cell, hfs]
  simp only [hmem, if_true, hparse]

/-! ### Claim C3 -/

/-- C3 counterexample. The claim states that for all valid inputs where the
    file and sheet exist, update_excel_cell followed by read_excel_file
    yields the written value at the addressed cell. Here the file and the
    sheet S exist (the sheet is empty), the cell A2 is updated to the text
    x, yet the read-back has NO data rows at all: pandas reads from the
    used-range minimum, so the single written cell becomes the header and
    the value surfaces only as a column label, not at any data cell. -/
theorem C3_counterexample :
    read_excel_file (update_excel_cell fsC3 "t.xlsx" "S" 2 "A" (some (.vStr "x"))).2
        "t.xlsx" (some "S") =
      .ok ⟨"t.xlsx", "S", 0, 1, ["x"], [], []⟩ := by
  decide

/-- C3 as amended: the round trip holds once the sheet addressed is an
    actual tabular sheet, that is, its used range already starts at row 1,
    column 1 (header in place), the addressed cell is a data cell (row at
    least 2), and the written value is a scalar whose stored form is not
    blank. Then reading the same path and sheet yields the written value
    unchanged at the addressed cell: the record at data index r - 2 carries
    spreadsheet row number r and holds the value at column position c - 1. -/
theorem C3_update_read_roundtrip
    (fs : FS) (path n column : String) (r c : Nat) (v : Val) (wb : Workbook) (s : Sheet)
    (hfs : lookupA fs path = some wb)
    (hsheet : wb.findSheet n = some s)
    (hn : n ≠ "")
    (hext : extOk path = true)
    (hcells : s.cells ≠ [])
    (hminr : s.minRow = 1) (hminc : s.minCol = 1)
    (hr : 2 ≤ r) (hc : 1 ≤ c)
    (hparse : parseCellRef (column ++ toString r) = some (r, c))
    (hv : v ≠ .vStr "") :
    ∃ res rec nm,
      read_excel_file (update_excel_cell fs path n r column (some v)).2 path (some n) =
        .ok res ∧
      res.data[r - 2]? = some rec ∧ rec.excelRowNumber = r ∧
      rec.fields[c - 1]? = some (nm, some v) := by
  have hmem : n ∈ wb.sheets.map Sheet.name := (findSheetL_name n wb.sheets s hsheet).2
  rw [update_ok fs path n column r (some v) wb (r, c) hfs hmem hparse]
  set wb2 := wb.updateSheet n (fun s0 => s0.setValue (r, c) (some v)) with hwb2
  set s2 := s.setValue (r, c) (some v) with hs2
  have hfs2 : lookupA (setAssoc fs path wb2) path = some wb2 := lookupA_setAssoc_self _ _ _
  have hfind2 : wb2.findSheet n = some s2 := by
    rw [hwb2, Workbook.findSheet, Workbook.updateSheet]
    show findSheetL n (updateFirstSheet n (fun s0 => s0.setValue (r, c) (some v)) wb.sheets) =
      some s2
    rw [findSheetL_updateFirst n (fun s0 => s0.setValue (r, c) (some v)) wb.sheets
      (fun s0 => rfl)]
    rw [show findSheetL n wb.sheets = some s from hsheet]
    rfl
  have hread : pandasReadExcel wb2 (some n) = .ok (pdReadSheet s2) := by
    rw [pandasReadExcel, strTruthy_some_of_ne n hn]
    simp only [if_true, Option.getD_some, pandasReadSheetNamed, hfind2]
  have h2min : s2.minRow = 1 := minRow_setValue s (r, c) (some v) hcells hminr (by omega)
  have h2minc : s2.minCol = 1 := minCol_setValue s (r, c) (some v) hcells hminc (by omega)
  have h2maxr : r ≤ s2.maxRow := maxRow_setValue_ge s (r, c) (some v)
  have h2maxc : c ≤ s2.maxCol := maxCol_setValue_ge s (r, c) (some v)
  have hcell2 : blankToNone (s2.cellAt r c) = some v := by
    rw [hs2]
    rw [show s2.cellAt r c = some v from cellAt_setValue_self s (r, c) (some v)]
    cases v with
    | vStr str =>
      have : str ≠ "" := by intro h; exact hv (by rw [h])
      simp [blankToNone, this]
    | vInt m => rfl
    | vBool b => rfl
  obtain ⟨row, hrow, hval, hclen⟩ :=
    pdRead_data_cell s2 r c v h2min h2minc hr hc h2maxr h2maxc hcell2
  obtain ⟨nm, hnm⟩ : ∃ nm, (pdReadSheet s2).columns[c - 1]? = some nm :=
    ⟨_, List.getElem?_eq_getElem hclen⟩
  rw [read_excel_file, hfs2]
  simp only [hext, if_true, hread]
  refine ⟨_, ⟨(r - 2) + 2, (pdReadSheet s2).columns.zip row⟩, nm, rfl, ?_,
    (show r - 2 + 2 = r by omega), ?_⟩
  · show (((dfRecords (pdReadSheet s2)).enum).map
      (fun p => (⟨p.1 + 2, p.2⟩ : RowRecord)))[r - 2]? = _
    rw [List.getElem?_map, enum_getElem?]
    rw [show (dfRecords (pdReadSheet s2))[r - 2]? =
      some ((pdReadSheet s2).columns.zip row) by
        rw [dfRecords, List.getElem?_map, hrow, Option.map_some']]
    rfl
  · exact getElem?_zip _ _ _ _ _ hnm hval

/-- Witness for C3 as amended, at a concrete tabular file. -/
theorem C3_update_read_roundtrip_witness :
    ∃ res rec nm,
      read_excel_file (update_excel_cell
          [("t.xlsx", ⟨[⟨"S", [((1, 1), ⟨some (.vStr "h"), {}, none⟩)]⟩]⟩)]
          "t.xlsx" "S" 2 "A" (some (.vStr "x"))).2 "t.xlsx" (some "S") = .ok res ∧
      res.data[2 - 2]? = some rec ∧ rec.excelRowNumber = 2 ∧
      rec.fields[1 - 1]? = some (nm, some (.vStr "x")) :=
  C3_update_read_roundtrip
    [("t.xlsx", ⟨[⟨"S", [((1, 1), ⟨some (.vStr "h"), {}, none⟩)]⟩]⟩)]
    "t.xlsx" "S" "A" 2 1 (.vStr "x")
    ⟨[⟨"S", [((1, 1), ⟨some (.vStr "h"), {}, none⟩)]⟩]⟩
    ⟨"S", [((1, 1), ⟨some (.vStr "h"), {}, none⟩)]⟩
    (by decide) (by decide) (by decide) (by decide) (by decide)
    (by decide) (by decide) (by decide) (by decide) (by decide) (by decide)

/-! ### Formatting: claims C1 and C8 -/

theorem applyFmt_idem (fc bg : Option String) (bd : Bool) (fsz : Option Nat) (d : CellData) :
    applyFmt fc bg bd fsz (applyFmt fc bg bd fsz d) = applyFmt fc bg bd fsz d := by
  cases h1 : fontSupplied fc bd fsz <;> cases h2 : strTruthy bg <;>
    simp [applyFmt, h1, h2]

theorem applyFmt_noop (d : CellData) :
    applyFmt none none false none d = d := by
  simp [applyFmt, fontSupplied, strTruthy, natTruthy]

theorem effCell_formatCell (s : Sheet) (a0 a : Addr) (fc bg : Option String) (bd : Bool)
    (fsz : Option Nat) :
    effCell (s.formatCell a0 fc bg bd fsz) a =
      if a = a0 then applyFmt fc bg bd fsz (effCell s a) else effCell s a := by
  by_cases he : a = a0
  · subst he
    rw [if_pos rfl]
    rw [effCell, Sheet.formatCell]
    show ((lookupA (setAssoc s.cells a _) a).getD {}) = _
    rw [lookupA_setAssoc_self]
    rfl
  · rw [if_neg he]
    rw [effCell, Sheet.formatCell]
    show ((lookupA (setAssoc s.cells a0 _) a).getD {}) = _
    rw [lookupA_setAssoc_ne _ _ _ _ (fun h => he h.symm)]
    rfl

theorem effCell_foldl_format (addrs : List Addr) (s : Sheet) (fc bg : Option String)
    (bd : Bool) (fsz : Option Nat) (a : Addr) :
    effCell (addrs.foldl (fun sh x => sh.formatCell x fc bg bd fsz) s) a =
      if a ∈ addrs then applyFmt fc bg bd fsz (effCell s a) else effCell s a := by
  induction addrs generalizing s with
  | nil => simp
  | cons a0 t ih =>
    rw [List.foldl_cons, ih]
    by_cases hmem : a ∈ t
    · rw [if_pos hmem, if_pos (List.mem_cons_of_mem _ hmem)]
      rw [effCell_formatCell]
      by_cases he : a = a0
      · rw [if_pos he, applyFmt_idem]
      · rw [if_neg he]
    · rw [if_neg hmem, effCell_formatCell]
      by_cases he : a = a0
      · rw [if_pos he, if_pos (by simp [he])]
      · rw [if_neg he, if_neg (by simp [he, hmem])]

theorem foldl_formatCell_name (addrs : List Addr) (s : Sheet) (fc bg : Option String)
    (bd : Bool) (fsz : Option Nat) :
    (addrs.foldl (fun sh x => sh.formatCell x fc bg bd fsz) s).name = s.name := by
  induction addrs generalizing s with
  | nil => rfl
  | cons a0 t ih =>
    rw [List.foldl_cons, ih]
    rfl

theorem mem_rangeAddrs (r1 c1 r2 c2 : Nat) (a : Addr) :
    a ∈ rangeAddrs r1 c1 r2 c2 ↔ (r1 ≤ a.1 ∧ a.1 ≤ r2 ∧ c1 ≤ a.2 ∧ a.2 ≤ c2) := by
  obtain ⟨ar, ac⟩ := a
  simp only [rangeAddrs, List.mem_flatten, List.mem_map, List.mem_range]
  constructor
  · rintro ⟨l, ⟨i, hi, rfl⟩, hmem⟩
    obtain ⟨j, hj, hja⟩ := List.mem_map.mp hmem
    rw [List.mem_range] at hj
    obtain ⟨h1, h2⟩ := Prod.mk.injEq .. ▸ hja
    simp only [Prod.mk.injEq] at hja
    omega
  · rintro ⟨h1, h2, h3, h4⟩
    refine ⟨_, ⟨ar - r1, by omega, rfl⟩, List.mem_map.mpr ⟨ac - c1, List.mem_range.mpr (by omega), ?_⟩⟩
    simp only [Prod.mk.injEq]
    omega

theorem format_ok (fs : FS) (path n range : String) (fc bg : Option String) (bd : Bool)
    (fsz : Option Nat) (wb : Workbook) (r1 c1 r2 c2 : Nat)
    (hfs : lookupA fs path = some wb)
    (hmem : n ∈ wb.sheets.map Sheet.name)
    (hparse : parseRange range = some (r1, c1, r2, c2)) :
    format_excel_cells fs path n range fc bg bd fsz =
      (.ok ⟨"success", path, n, range, true⟩,
       setAssoc fs path (wb.updateSheet n (fun s =>
         (rangeAddrs r1 c1 r2 c2).foldl (fun sh a => sh.formatCell a fc bg bd fsz) s))) := by
  rw [format_excel_cells, hfs]
  simp only [hmem, if_true, hparse]

theorem findSheet_updateSheet_format (wb : Workbook) (n : String) (s : Sheet)
    (hsheet : wb.findSheet n = some s) (addrs : List Addr) (fc bg : Option String)
    (bd : Bool) (fsz : Option Nat) :
    (wb.updateSheet n
        (fun s0 => addrs.foldl (fun sh a => sh.formatCell a fc bg bd fsz) s0)).findSheet n =
      some (addrs.foldl (fun sh a => sh.formatCell a fc bg bd fsz) s) := by
  rw [Workbook.findSheet, Workbook.updateSheet]
  show findSheetL n (updateFirstSheet n
    (fun s0 => addrs.foldl (fun sh a => sh.formatCell a fc bg bd fsz) s0) wb.sheets) = _
  rw [findSheetL_updateFirst n _ wb.sheets
    (fun s0 => foldl_formatCell_name addrs s0 fc bg bd fsz)]
  rw [show findSheetL n wb.sheets = some s from hsheet]
  rfl

/-- C1 counterexample. The claim states that Format Descriptor fields that
    were not supplied keep their per-cell values. Here cell A1 starts with
    font (color none, bold true, size 20); the call supplies ONLY a font
    color, yet afterwards the cell font is (color FF0000, bold unset, size
    unset): the supplied-field write rebuilt the whole font object, so the
    unsupplied bold flag and font size were reset, not preserved. -/
theorem C1_counterexample :
    fontAt fsC1 "t.xlsx" "S" (1, 1) = some ⟨none, some true, some 20⟩ ∧
    (format_excel_cells fsC1 "t.xlsx" "S" "A1:A1" (some "FF0000") none false none).1 =
      .ok ⟨"success", "t.xlsx", "S", "A1:A1", true⟩ ∧
    fontAt (format_excel_cells fsC1 "t.xlsx" "S" "A1:A1" (some "FF0000") none false none).2
        "t.xlsx" "S" (1, 1) =
      some ⟨some "FF0000", none, none⟩ := by
  refine ⟨by decide, by decide, by decide⟩

/-- C1 as amended: on an existing file and sheet with a well-formed range,
    the call succeeds, and every cell of the range is restyled as follows.
    If at least one font field is supplied (a nonempty font color, the bold
    flag, or a nonzero font size), the cell font is REPLACED by a fresh
    font carrying exactly the supplied fields, all unsupplied font
    attributes being reset to their defaults; if no font field is supplied
    the font is untouched. The fill is set to the supplied background
    colour when one is given and is untouched otherwise, and cell values
    are untouched. Cells outside the range are untouched. -/
theorem C1_format_range
    (fs : FS) (path n range : String) (fc bg : Option String) (bd : Bool) (fsz : Option Nat)
    (wb : Workbook) (s : Sheet) (r1 c1 r2 c2 : Nat)
    (hfs : lookupA fs path = some wb)
    (hsheet : wb.findSheet n = some s)
    (hparse : parseRange range = some (r1, c1, r2, c2)) :
    ∃ wb2 s2,
      format_excel_cells fs path n range fc bg bd fsz =
        (.ok ⟨"success", path, n, range, true⟩, setAssoc fs path wb2) ∧
      wb2.findSheet n = some s2 ∧
      ∀ a : Addr,
        effCell s2 a =
          if r1 ≤ a.1 ∧ a.1 ≤ r2 ∧ c1 ≤ a.2 ∧ a.2 ≤ c2 then
            { value := (effCell s a).value
              font := if fontSupplied fc bd fsz then mkFont fc bd fsz else (effCell s a).font
              fill := if strTruthy bg then bg else (effCell s a).fill }
          else effCell s a := by
  have hmem : n ∈ wb.sheets.map Sheet.name := (findSheetL_name n wb.sheets s hsheet).2
  refine ⟨_, (rangeAddrs r1 c1 r2 c2).foldl (fun sh a => sh.formatCell a fc bg bd fsz) s,
    format_ok fs path n range fc bg bd fsz wb r1 c1 r2 c2 hfs hmem hparse,
    findSheet_updateSheet_format wb n s hsheet (rangeAddrs r1 c1 r2 c2) fc bg bd fsz, ?_⟩
  intro a
  rw [effCell_foldl_format]
  rw [if_congr (mem_rangeAddrs r1 c1 r2 c2 a) rfl rfl]
  rfl

/-- Witness for C1 as amended, at a concrete file, range and descriptor. -/
theorem C1_format_range_witness :
    ∃ wb2 s2,
      format_excel_cells fsC1 "t.xlsx" "S" "A1:B2" (some "FF0000") none false none =
        (.ok ⟨"success", "t.xlsx", "S", "A1:B2", true⟩, setAssoc fsC1 "t.xlsx" wb2) ∧
      wb2.findSheet "S" = some s2 ∧
      ∀ a : Addr,
        effCell s2 a =
          if 1 ≤ a.1 ∧ a.1 ≤ 2 ∧ 1 ≤ a.2 ∧ a.2 ≤ 2 then
            { value := (effCell ⟨"S", [((1, 1), ⟨some (.vStr "x"), ⟨none, some true, some 20⟩, none⟩)]⟩ a).value
              font := if fontSupplied (some "FF0000") false none then
                  mkFont (some "FF0000") false none
                else (effCell ⟨"S", [((1, 1), ⟨some (.vStr "x"), ⟨none, some true, some 20⟩, none⟩)]⟩ a).font
              fill := if strTruthy none then none
                else (effCell ⟨"S", [((1, 1), ⟨some (.vStr "x"), ⟨none, some true, some 20⟩, none⟩)]⟩ a).fill }
          else effCell ⟨"S", [((1, 1), ⟨some (.vStr "x"), ⟨none, some true, some 20⟩, none⟩)]⟩ a :=
  C1_format_range fsC1 "t.xlsx" "S" "A1:B2" (some "FF0000") none false none
    ⟨[⟨"S", [((1, 1), ⟨some (.vStr "x"), ⟨none, some true, some 20⟩, none⟩)]⟩]⟩
    ⟨"S", [((1, 1), ⟨some (.vStr "x"), ⟨none, some true, some 20⟩, none⟩)]⟩
    1 1 2 2 (by decide) (by decide) (by decide)

/-- C8 counterexample. The claim states that a call with no descriptor
    fields succeeds AND reports that no visual change was made. The call
    does succeed, but the only effect-describing field of the result,
    formatting_applied, is the constant true: the result reports that
    formatting WAS applied, never that nothing changed. -/
theorem C8_counterexample :
    (format_excel_cells fsC8 "t.xlsx" "S" "A1:A1" none none false none).1 =
      .ok ⟨"success", "t.xlsx", "S", "A1:A1", true⟩ := by
  decide

/-- C8 as amended: a call with no descriptor fields on an existing file,
    sheet and well-formed range succeeds and indeed changes no cell (every
    cell keeps its value, font and fill), but the result still reports
    formatting_applied = true rather than reporting no visual change. -/
theorem C8_noop_format
    (fs : FS) (path n range : String) (wb : Workbook) (s : Sheet) (r1 c1 r2 c2 : Nat)
    (hfs : lookupA fs path = some wb)
    (hsheet : wb.findSheet n = some s)
    (hparse : parseRange range = some (r1, c1, r2, c2)) :
    ∃ wb2 s2,
      format_excel_cells fs path n range none none false none =
        (.ok ⟨"success", path, n, range, true⟩, setAssoc fs path wb2) ∧
      wb2.findSheet n = some s2 ∧
      ∀ a : Addr, effCell s2 a = effCell s a := by
  have hmem : n ∈ wb.sheets.map Sheet.name := (findSheetL_name n wb.sheets s hsheet).2
  refine ⟨_, (rangeAddrs r1 c1 r2 c2).foldl (fun sh a => sh.formatCell a none none false none) s,
    format_ok fs path n range none none false none wb r1 c1 r2 c2 hfs hmem hparse,
    findSheet_updateSheet_format wb n s hsheet (rangeAddrs r1 c1 r2 c2) none none false none,
    ?_⟩
  intro a
  rw [effCell_foldl_format]
  by_cases hmem2 : a ∈ rangeAddrs r1 c1 r2 c2
  · rw [if_pos hmem2, applyFmt_noop]
  · rw [if_neg hmem2]

/-- Witness for C8 as amended, at a concrete file and range. -/
theorem C8_noop_format_witness :
    ∃ wb2 s2,
      format_excel_cells fsC8 "t.xlsx" "S" "A1:B2" none none false none =
        (.ok ⟨"success", "t.xlsx", "S", "A1:B2", true⟩, setAssoc fsC8 "t.xlsx" wb2) ∧
      wb2.findSheet "S" = some s2 ∧
      ∀ a : Addr, effCell s2 a = effCell ⟨"S", [((1, 1), ⟨some (.vStr "x"), {}, none⟩)]⟩ a :=
  C8_noop_format fsC8 "t.xlsx" "S" "A1:B2"
    ⟨[⟨"S", [((1, 1), ⟨some (.vStr "x"), {}, none⟩)]⟩]⟩
    ⟨"S", [((1, 1), ⟨some (.vStr "x"), {}, none⟩)]⟩
    1 1 2 2 (by decide) (by decide) (by decide)

/-! ### Validation-error paths: claims C6, C9, C10 -/

theorem update_err_nf (fs : FS) (path n column : String) (r : Nat) (v : Option Val)
    (hfs : lookupA fs path = none) :
    update_excel_cell fs path n r column v = (.error (fileNotFoundMsg path), fs) := by
  rw [update_excel_cell, hfs]

theorem update_err_sheet (fs : FS) (path n column : String) (r : Nat) (v : Option Val)
    (wb : Workbook) (hfs : lookupA fs path = some wb)
    (hmem : n ∉ wb.sheets.map Sheet.name) :
    update_excel_cell fs path n r column v = (.error (sheetNotFoundMsg n), fs) := by
  rw [update_excel_cell, hfs]
  simp only [hmem, if_false]

theorem format_err_nf (fs : FS) (path n range : String) (fc bg : Option String) (bd : Bool)
    (fsz : Option Nat) (hfs : lookupA fs path = none) :
    format_excel_cells fs path n range fc bg bd fsz = (.error (fileNotFoundMsg path), fs) := by
  rw [format_excel_cells, hfs]

theorem format_err_sheet (fs : FS) (path n range : String) (fc bg : Option String)
    (bd : Bool) (fsz : Option Nat) (wb : Workbook) (hfs : lookupA fs path = some wb)
    (hmem : n ∉ wb.sheets.map Sheet.name) :
    format_excel_cells fs path n range fc bg bd fsz = (.error (sheetNotFoundMsg n), fs) := by
  rw [format_excel_cells, hfs]
  simp only [hmem, if_false]

theorem delete_err_nf (fs : FS) (path n : String) (hfs : lookupA fs path = none) :
    delete_excel_sheet fs path n = (.error (fileNotFoundMsg path), fs) := by
  rw [delete_excel_sheet, hfs]

theorem delete_err_sheet (fs : FS) (path n : String) (wb : Workbook)
    (hfs : lookupA fs path = some wb) (hmem : n ∉ wb.sheets.map Sheet.name) :
    delete_excel_sheet fs path n = (.error (sheetNotFoundMsg n), fs) := by
  rw [delete_excel_sheet, hfs]
  simp only [hmem, if_false]

theorem delete_err_last (fs : FS) (path n : String) (wb : Workbook)
    (hfs : lookupA fs path = some wb) (hmem : n ∈ wb.sheets.map Sheet.name)
    (hlen : wb.sheets.length = 1) :
    delete_excel_sheet fs path n = (.error lastSheetMsg, fs) := by
  rw [delete_excel_sheet, hfs]
  simp [hmem, hlen]

theorem delete_ok (fs : FS) (path n : String) (wb : Workbook)
    (hfs : lookupA fs path = some wb) (hmem : n ∈ wb.sheets.map Sheet.name)
    (hlen : wb.sheets.length ≠ 1) :
    delete_excel_sheet fs path n =
      (.ok ⟨"success", path, n, (removeFirstSheet n wb.sheets).map Sheet.name⟩,
       setAssoc fs path ⟨removeFirstSheet n wb.sheets⟩) := by
  rw [delete_excel_sheet, hfs]
  simp [hmem, hlen]

theorem add_err_exists (fs : FS) (path n : String) (data : Option (List PyRecord))
    (hmem : n ∈ ((lookupA fs path).getD freshWorkbook).sheets.map Sheet.name) :
    add_excel_sheet fs path n data = (.error (sheetExistsMsg n), fs) := by
  simp only [add_excel_sheet]
  rw [if_pos hmem]

theorem length_removeFirstSheet (n : String) (l : List Sheet) :
    l.length ≤ (removeFirstSheet n l).length + 1 := by
  induction l with
  | nil => simp [removeFirstSheet]
  | cons s ss ih =>
    rw [removeFirstSheet]
    split
    · simp
    · simp only [List.length_cons]
      omega

/-- C6: on a Document that currently has exactly one sheet, deleting that
    sheet (first conjunct, the sheet list is exactly the one name) returns
    the dedicated last-sheet error and returns the filesystem unchanged;
    and (second conjunct) whatever delete_excel_sheet does, a document that
    had at least one sheet still has at least one sheet afterwards. -/
theorem C6_last_sheet_guard :
    (∀ (fs : FS) (path n : String) (wb : Workbook),
      lookupA fs path = some wb → wb.sheets.map Sheet.name = [n] →
      delete_excel_sheet fs path n = (.error lastSheetMsg, fs)) ∧
    (∀ (fs : FS) (path n : String) (wb wb2 : Workbook),
      lookupA fs path = some wb → wb.sheets ≠ [] →
      lookupA (delete_excel_sheet fs path n).2 path = some wb2 → wb2.sheets ≠ []) := by
  constructor
  · intro fs path n wb hfs hnames
    have hmem : n ∈ wb.sheets.map Sheet.name := by rw [hnames]; simp
    have hlen : wb.sheets.length = 1 := by
      have h2 := congrArg List.length hnames
      simpa using h2
    exact delete_err_last fs path n wb hfs hmem hlen
  · intro fs path n wb wb2 hfs hne h2
    by_cases hmem : n ∈ wb.sheets.map Sheet.name
    · by_cases hlen : wb.sheets.length = 1
      · rw [delete_err_last fs path n wb hfs hmem hlen] at h2
        rw [hfs] at h2
        cases h2
        exact hne
      · rw [delete_ok fs path n wb hfs hmem hlen] at h2
        rw [lookupA_setAssoc_self] at h2
        cases h2
        intro hnil
        have hg : 2 ≤ wb.sheets.length := by
          have hpos : 0 < wb.sheets.length := List.length_pos.mpr hne
          omega
        have hnil2 : removeFirstSheet n wb.sheets = [] := hnil
        have hr := length_removeFirstSheet n wb.sheets
        rw [hnil2] at hr
        simp at hr
        omega
    · rw [delete_err_sheet fs path n wb hfs hmem] at h2
      rw [hfs] at h2
      cases h2
      exact hne

/-- Witness for C6 at a concrete single-sheet file. -/
theorem C6_last_sheet_guard_witness :
    delete_excel_sheet fsC3 "t.xlsx" "S1" = (.error lastSheetMsg, fsC3) ∨
    delete_excel_sheet [("t.xlsx", ⟨[⟨"S", []⟩]⟩)] "t.xlsx" "S" =
      (.error lastSheetMsg, [("t.xlsx", ⟨[⟨"S", []⟩]⟩)]) := by
  right
  exact C6_last_sheet_guard.1 [("t.xlsx", ⟨[⟨"S", []⟩]⟩)] "t.xlsx" "S"
    ⟨[⟨"S", []⟩]⟩ (by decide) (by decide)

/-- C9: add_excel_sheet on a path with no file and sheet name Sheet builds
    a fresh in-memory workbook whose default sheet is already named Sheet,
    so the collision check fires: the call returns the already-exists error
    before any save, and no file is created at the path. -/
theorem C9_add_default_collision (fs : FS) (path : String) (data : Option (List PyRecord))
    (hfs : lookupA fs path = none) :
    add_excel_sheet fs path "Sheet" data = (.error (sheetExistsMsg "Sheet"), fs) ∧
    lookupA (add_excel_sheet fs path "Sheet" data).2 path = none := by
  have h1 : add_excel_sheet fs path "Sheet" data = (.error (sheetExistsMsg "Sheet"), fs) := by
    apply add_err_exists
    rw [hfs]
    decide
  exact ⟨h1, by rw [h1]; exact hfs⟩

/-- Witness for C9 on the empty filesystem. -/
theorem C9_add_default_collision_witness :
    add_excel_sheet [] "new.xlsx" "Sheet" none = (.error (sheetExistsMsg "Sheet"), []) ∧
    lookupA (add_excel_sheet [] "new.xlsx" "Sheet" none).2 "new.xlsx" = none :=
  C9_add_default_collision [] "new.xlsx" none (by decide)

/-- C10: in update_excel_cell, format_excel_cells, delete_excel_sheet and
    add_excel_sheet, every input-validation error (file not found, sheet
    not found, sheet-name collision, last remaining sheet) is returned
    before any save: in each such case the operation returns the error
    object together with the filesystem exactly as it was. -/
theorem C10_validation_errors_leave_file_unchanged :
    (∀ (fs : FS) (path n column : String) (r : Nat) (v : Option Val),
      lookupA fs path = none →
      update_excel_cell fs path n r column v = (.error (fileNotFoundMsg path), fs)) ∧
    (∀ (fs : FS) (path n column : String) (r : Nat) (v : Option Val) (wb : Workbook),
      lookupA fs path = some wb → n ∉ wb.sheets.map Sheet.name →
      update_excel_cell fs path n r column v = (.error (sheetNotFoundMsg n), fs)) ∧
    (∀ (fs : FS) (path n range : String) (fc bg : Option String) (bd : Bool) (fsz : Option Nat),
      lookupA fs path = none →
      format_excel_cells fs path n range fc bg bd fsz = (.error (fileNotFoundMsg path), fs)) ∧
    (∀ (fs : FS) (path n range : String) (fc bg : Option String) (bd : Bool) (fsz : Option Nat)
        (wb : Workbook),
      lookupA fs path = some wb → n ∉ wb.sheets.map Sheet.name →
      format_excel_cells fs path n range fc bg bd fsz = (.error (sheetNotFoundMsg n), fs)) ∧
    (∀ (fs : FS) (path n : String),
      lookupA fs path = none →
      delete_excel_sheet fs path n = (.error (fileNotFoundMsg path), fs)) ∧
    (∀ (fs : FS) (path n : String) (wb : Workbook),
      lookupA fs path = some wb → n ∉ wb.sheets.map Sheet.name →
      delete_excel_sheet fs path n = (.error (sheetNotFoundMsg n), fs)) ∧
    (∀ (fs : FS) (path n : String) (wb : Workbook),
      lookupA fs path = some wb → n ∈ wb.sheets.map Sheet.name → wb.sheets.length = 1 →
      delete_excel_sheet fs path n = (.error lastSheetMsg, fs)) ∧
    (∀ (fs : FS) (path n : String) (data : Option (List PyRecord)),
      n ∈ ((lookupA fs path).getD freshWorkbook).sheets.map Sheet.name →
      add_excel_sheet fs path n data = (.error (sheetExistsMsg n), fs)) := by
  refine ⟨?_, ?_, ?_, ?_, ?_, ?_, ?_, ?_⟩
  · intro fs path n column r v h
    exact update_err_nf fs path n column r v h
  · intro fs path n column r v wb h1 h2
    exact update_err_sheet fs path n column r v wb h1 h2
  · intro fs path n range fc bg bd fsz h
    exact format_err_nf fs path n range fc bg bd fsz h
  · intro fs path n range fc bg bd fsz wb h1 h2
    exact format_err_sheet fs path n range fc bg bd fsz wb h1 h2
  · intro fs path n h
    exact delete_err_nf fs path n h
  · intro fs path n wb h1 h2
    exact delete_err_sheet fs path n wb h1 h2
  · intro fs path n wb h1 h2 h3
    exact delete_err_last fs path n wb h1 h2 h3
  · intro fs path n data h
    exact add_err_exists fs path n data h

/-- Witness for C10: each validation error raised at a concrete input, the
    filesystem coming back identical. -/
theorem C10_validation_errors_witness :
    update_excel_cell [] "x.xlsx" "S" 1 "A" none = (.error (fileNotFoundMsg "x.xlsx"), []) ∧
    update_excel_cell fsC3 "t.xlsx" "T" 1 "A" none = (.error (sheetNotFoundMsg "T"), fsC3) ∧
    format_excel_cells [] "x.xlsx" "S" "A1:A1" none none false none =
      (.error (fileNotFoundMsg "x.xlsx"), []) ∧
    format_excel_cells fsC3 "t.xlsx" "T" "A1:A1" none none false none =
      (.error (sheetNotFoundMsg "T"), fsC3) ∧
    delete_excel_sheet [] "x.xlsx" "S" = (.error (fileNotFoundMsg "x.xlsx"), []) ∧
    delete_excel_sheet fsC3 "t.xlsx" "T" = (.error (sheetNotFoundMsg "T"), fsC3) ∧
    delete_excel_sheet fsC3 "t.xlsx" "S" = (.error lastSheetMsg, fsC3) ∧
    add_excel_sheet fsC3 "t.xlsx" "S" none = (.error (sheetExistsMsg "S"), fsC3) := by
  obtain ⟨h1, h2, h3, h4, h5, h6, h7, h8⟩ := C10_validation_errors_leave_file_unchanged
  exact ⟨h1 [] "x.xlsx" "S" "A" 1 none (by decide),
    h2 fsC3 "t.xlsx" "T" "A" 1 none ⟨[⟨"S", []⟩]⟩ (by decide) (by decide),
    h3 [] "x.xlsx" "S" "A1:A1" none none false none (by decide),
    h4 fsC3 "t.xlsx" "T" "A1:A1" none none false none ⟨[⟨"S", []⟩]⟩ (by decide) (by decide),
    h5 [] "x.xlsx" "S" (by decide),
    h6 fsC3 "t.xlsx" "T" ⟨[⟨"S", []⟩]⟩ (by decide) (by decide),
    h7 fsC3 "t.xlsx" "S" ⟨[⟨"S", []⟩]⟩ (by decide) (by decide) (by decide),
    h8 fsC3 "t.xlsx" "S" none (by decide)⟩

/-! ### Claim C2: all nine operations return structured results -/

theorem opResult_shape {α : Type} (r : OpResult α) :
    (∃ a, r = .ok a) ∨ (∃ m, r = .error m) := by
  cases r with
  | ok a => exact Or.inl ⟨a, rfl⟩
  | error m => exact Or.inr ⟨m, rfl⟩

/-- C2: each of the nine operations is a total function of its inputs into
    the OpResult type: on every input, valid or not, it returns either a
    success object or an error object whose single field is the
    human-readable message, and the caller distinguishes the two by which
    variant (presence of the error field) it received. This is the shallow
    embedding of the per-operation try/except boundary of the source: every
    failure inside an operation is converted to the error variant and no
    exception escapes. -/
theorem C2_structured_results :
    (∀ (fs : FS) (p : String) (sn : Option String),
      (∃ a, read_excel_file fs p sn = .ok a) ∨ (∃ m, read_excel_file fs p sn = .error m)) ∧
    (∀ (fs : FS) (p : String),
      (∃ a, list_excel_sheets fs p = .ok a) ∨ (∃ m, list_excel_sheets fs p = .error m)) ∧
    (∀ (fs : FS) (p : String) (data : List PyRecord) (sn : String),
      (∃ a, (write_excel_file fs p data sn).1 = .ok a) ∨
        (∃ m, (write_excel_file fs p data sn).1 = .error m)) ∧
    (∀ (fs : FS) (p n column : String) (r : Nat) (v : Option Val),
      (∃ a, (update_excel_cell fs p n r column v).1 = .ok a) ∨
        (∃ m, (update_excel_cell fs p n r column v).1 = .error m)) ∧
    (∀ (fs : FS) (p n range : String) (fc bg : Option String) (bd : Bool) (fsz : Option Nat),
      (∃ a, (format_excel_cells fs p n range fc bg bd fsz).1 = .ok a) ∨
        (∃ m, (format_excel_cells fs p n range fc bg bd fsz).1 = .error m)) ∧
    (∀ (fs : FS) (p n : String) (data : Option (List PyRecord)),
      (∃ a, (add_excel_sheet fs p n data).1 = .ok a) ∨
        (∃ m, (add_excel_sheet fs p n data).1 = .error m)) ∧
    (∀ (fs : FS) (p n : String),
      (∃ a, (delete_excel_sheet fs p n).1 = .ok a) ∨
        (∃ m, (delete_excel_sheet fs p n).1 = .error m)) ∧
    (∀ (fs : FS) (p : String) (sn : Option String),
      (∃ a, excel_data_summary fs p sn = .ok a) ∨
        (∃ m, excel_data_summary fs p sn = .error m)) ∧
    (∀ (fs : FS) (p n sc sv : String),
      (∃ a, find_excel_row_by_content fs p n sc sv = .ok a) ∨
        (∃ m, find_excel_row_by_content fs p n sc sv = .error m)) :=
  ⟨fun _ _ _ => opResult_shape _,
   fun _ _ => opResult_shape _,
   fun _ _ _ _ => opResult_shape _,
   fun _ _ _ _ _ _ => opResult_shape _,
   fun _ _ _ _ _ _ _ _ => opResult_shape _,
   fun _ _ _ _ => opResult_shape _,
   fun _ _ _ => opResult_shape _,
   fun _ _ _ => opResult_shape _,
   fun _ _ _ _ _ => opResult_shape _⟩

/-! ### Claim C5: row search semantics -/

/-- C5 counterexample, in two parts. First: searching column name for the
    value a matches spreadsheet row 3, whose name cell is MISSING: the
    claim says a null cell never matches, but astype(str) renders the
    missing value as the text nan before the na=False guard can see it,
    and nan contains a. Second: the search value is a regular expression,
    not a literal substring: x.z matches the cell xyz although it is not a
    case-insensitive substring of it (third conjunct). -/
theorem C5_counterexample :
    find_excel_row_by_content fs5 "t.xlsx" "S" "name" "a" =
      .ok (.found "name" "a" [⟨3, 1, [("name", none), ("note", some (.vStr "x"))]⟩] 1) ∧
    find_excel_row_by_content fs5b "u.xlsx" "S" "col" "x.z" =
      .ok (.found "col" "x.z" [⟨2, 0, [("col", some (.vStr "xyz"))]⟩] 1) ∧
    specSubstringCI "x.z" "xyz" = false := by
  refine ⟨by decide, by decide, by decide⟩

/-- C5 as amended: on an existing file whose named sheet parses to a
    DataFrame containing the searched column, matching is a
    case-insensitive regular-expression search of the search value against
    the astype(str) rendering of each cell, under which a missing cell is
    the text nan (first conjunct) and can therefore match; when no row
    matches, the operation returns the not-found success object, not an
    error (second conjunct); when rows match, it returns them with
    spreadsheet row numbers index + 2 (third conjunct). -/
theorem C5_find_semantics
    (fs : FS) (path n col v : String) (wb : Workbook) (s : Sheet) (j : Nat)
    (hfs : lookupA fs path = some wb)
    (hsheet : wb.findSheet n = some s)
    (hcol : idxOf? col (pdReadSheet s).columns = some j) :
    (rowMatches v none = reSearch v "nan") ∧
    (matchedRows (pdReadSheet s) j v = [] →
      find_excel_row_by_content fs path n col v =
        .ok (.notFound (notFoundSearchMsg v col))) ∧
    (∀ ms, matchedRows (pdReadSheet s) j v = ms → ms ≠ [] →
      find_excel_row_by_content fs path n col v =
        .ok (.found col v
          (ms.map (fun p => ⟨p.1 + 2, p.1, (pdReadSheet s).columns.zip p.2⟩)) ms.length)) := by
  refine ⟨rfl, ?_, ?_⟩
  · intro hms
    rw [find_excel_row_by_content, hfs]
    simp only [pandasReadSheetNamed, hsheet, hcol, hms, if_true]
  · intro ms hms hne
    rw [find_excel_row_by_content, hfs]
    simp only [pandasReadSheetNamed, hsheet, hcol, hms]
    rw [if_neg hne]

/-- Witness for C5 as amended, on the concrete searched sheet. -/
theorem C5_find_semantics_witness :
    (rowMatches "a" none = reSearch "a" "nan") ∧
    (matchedRows (pdReadSheet sheet5) 0 "a" = [] →
      find_excel_row_by_content fs5 "t.xlsx" "S" "name" "a" =
        .ok (.notFound (notFoundSearchMsg "a" "name"))) ∧
    (∀ ms, matchedRows (pdReadSheet sheet5) 0 "a" = ms → ms ≠ [] →
      find_excel_row_by_content fs5 "t.xlsx" "S" "name" "a" =
        .ok (.found "name" "a"
          (ms.map (fun p => ⟨p.1 + 2, p.1, (pdReadSheet sheet5).columns.zip p.2⟩))
          ms.length)) :=
  C5_find_semantics fs5 "t.xlsx" "S" "name" "a" ⟨[sheet5]⟩ sheet5 0
    (by decide) (by decide) (by decide)

/-! ### Claim C7: write semantics -/

/-- C7 counterexample. For the ragged Record Set the write succeeds and
    reports the column list a, b — the union of keys in first-appearance
    order across all rows — whereas the column list of the input in the
    sense of the data model (the key insertion order of the first row) is
    just a. -/
theorem C7_counterexample :
    writeColumns (write_excel_file [] "t.xlsx" raggedData "S1").1 = some ["a", "b"] ∧
    (raggedData.headD []).map Prod.fst = ["a"] := by
  refine ⟨by decide, by decide⟩

/-- C7 as amended: write_excel_file always succeeds, creating or fully
    overwriting the file at the path with a workbook holding exactly one
    sheet, the written grid being the header row followed by the data rows
    (dfToSheet of the DataFrame built from the records); the result carries
    a rows-written count equal to the input length and the column list of
    the built DataFrame — the keys of the records in first-appearance
    order across all rows, which equals the key order of the first row only
    when later rows introduce no new keys — or the empty list when either
    axis of the DataFrame is empty; an empty Record Set yields a success
    with zero rows written and an empty column list, not an error. -/
theorem C7_write_overwrites (fs : FS) (path : String) (data : List PyRecord) (sh : String) :
    write_excel_file fs path data sh =
      (.ok ⟨"success", path, sh, data.length,
        if dfEmpty (recordsToDf data) then [] else (recordsToDf data).columns⟩,
       setAssoc fs path ⟨[dfToSheet sh (recordsToDf data)]⟩) ∧
    lookupA (write_excel_file fs path data sh).2 path =
      some ⟨[dfToSheet sh (recordsToDf data)]⟩ ∧
    (data = [] →
      ∃ res, (write_excel_file fs path data sh).1 = .ok res ∧ res.rowsWritten = 0 ∧
        res.columns = []) := by
  refine ⟨rfl, lookupA_setAssoc_self fs path _, ?_⟩
  intro h
  subst h
  exact ⟨_, rfl, rfl, rfl⟩

/-- Witness for C7: writing the empty Record Set over an existing file. -/
theorem C7_write_overwrites_witness :
    write_excel_file fsC3 "t.xlsx" [] "S1" =
      (.ok ⟨"success", "t.xlsx", "S1", ([] : List PyRecord).length,
        if dfEmpty (recordsToDf []) then [] else (recordsToDf []).columns⟩,
       setAssoc fsC3 "t.xlsx" ⟨[dfToSheet "S1" (recordsToDf [])]⟩) ∧
    lookupA (write_excel_file fsC3 "t.xlsx" [] "S1").2 "t.xlsx" =
      some ⟨[dfToSheet "S1" (recordsToDf [])]⟩ ∧
    (([] : List PyRecord) = [] →
      ∃ res, (write_excel_file fsC3 "t.xlsx" [] "S1").1 = .ok res ∧ res.rowsWritten = 0 ∧
        res.columns = []) :=
  C7_write_overwrites fsC3 "t.xlsx" [] "S1"

/-! ### Written grids: lookup and dimensions (towards claim C4) -/

theorem lookupA_append {α β : Type} [DecidableEq α] (l1 l2 : List (α × β)) (k : α) :
    lookupA (l1 ++ l2) k = match lookupA l1 k with
      | some v => some v
      | none => lookupA l2 k := by
  induction l1 with
  | nil => simp [lookupA]
  | cons hd t ih =>
    obtain ⟨k0, v0⟩ := hd
    by_cases hk : k0 = k
    · simp [lookupA, hk]
    · simp [lookupA, hk, ih]

theorem lookupA_rowCells (ds : List CellData) (row j r c : Nat) :
    lookupA (rowCells row j ds) (r, c) =
      if r = row ∧ j ≤ c then ds[c - j]? else none := by
  induction ds generalizing j with
  | nil =>
    simp only [rowCells, lookupA, List.getElem?_nil]
    rw [ite_self]
  | cons d t ih =>
    simp only [rowCells, lookupA]
    by_cases hr : r = row
    · subst hr
      by_cases hc : j = c
      · subst hc
        rw [if_pos rfl, if_pos ⟨rfl, le_refl j⟩]
        simp
      · have hne : ¬(((r, j) : Addr) = (r, c)) := by
          simp only [Prod.mk.injEq]
          intro h
          exact hc h.2
        rw [if_neg hne, ih]
        by_cases hjc : j ≤ c
        · have h2 : j + 1 ≤ c := by omega
          rw [if_pos ⟨rfl, h2⟩, if_pos ⟨rfl, hjc⟩]
          have h4 : c - j = (c - (j + 1)) + 1 := by omega
          rw [h4, List.getElem?_cons_succ]
        · rw [if_neg (fun h => hjc (by omega)), if_neg (fun h => hjc h.2)]
    · have hne : ¬(((row, j) : Addr) = (r, c)) := by
        simp only [Prod.mk.injEq]
        intro h
        exact hr h.1.symm
      rw [if_neg hne, ih]
      rw [if_neg (fun h => hr h.1), if_neg (fun h => hr h.1)]

theorem lookupA_gridCells (g : List (List CellData)) (i r c : Nat) (hc : 1 ≤ c) :
    lookupA (gridCells i g) (r, c) =
      if i ≤ r then (g[r - i]?.bind (fun ds => ds[c - 1]?)) else none := by
  induction g generalizing i with
  | nil =>
    simp only [gridCells, lookupA, List.getElem?_nil, Option.none_bind]
    rw [ite_self]
  | cons ds g2 ih =>
    simp only [gridCells]
    rw [lookupA_append, lookupA_rowCells]
    by_cases hr : r = i
    · subst hr
      rw [if_pos ⟨rfl, hc⟩]
      cases hd : ds[c - 1]? with
      | some d =>
        simp only [hd]
        rw [if_pos (le_refl r), Nat.sub_self]
        simp [hd]
      | none =>
        simp only [hd]
        rw [ih (i := r + 1), if_neg (by omega), if_pos (le_refl r), Nat.sub_self]
        simp [hd]
    · by_cases hir : i ≤ r
      · have h2 : i + 1 ≤ r := by omega
        rw [if_neg (fun h => hr h.1)]
        simp only []
        rw [ih (i := i + 1), if_pos h2, if_pos hir]
        have h3 : r - i = (r - (i + 1)) + 1 := by omega
        rw [h3, List.getElem?_cons_succ]
      · rw [if_neg (fun h => hr h.1)]
        simp only []
        rw [ih (i := i + 1), if_neg (by omega), if_neg hir]

theorem natsMin_append (l1 l2 : List Nat) :
    natsMin (l1 ++ l2) = match natsMin l1, natsMin l2 with
      | none, m => m
      | some a, none => some a
      | some a, some b => some (Nat.min a b) := by
  induction l1 with
  | nil => cases h : natsMin l2 <;> simp [natsMin, h]
  | cons x t ih =>
    simp only [List.cons_append, natsMin, List.append_eq, ih]
    cases h1 : natsMin t <;> cases h2 : natsMin l2 <;> simp [h1, h2, min_assoc]

theorem natsMax_append (l1 l2 : List Nat) :
    natsMax (l1 ++ l2) = match natsMax l1, natsMax l2 with
      | none, m => m
      | some a, none => some a
      | some a, some b => some (Nat.max a b) := by
  induction l1 with
  | nil => cases h : natsMax l2 <;> simp [natsMax, h]
  | cons x t ih =>
    simp only [List.cons_append, natsMax, List.append_eq, ih]
    cases h1 : natsMax t <;> cases h2 : natsMax l2 <;> simp [h1, h2, max_assoc]

theorem rowKeys_rowCells_min (ds : List CellData) (i j : Nat) :
    natsMin ((rowCells i j ds).map (fun p => p.1.1)) =
      if ds = [] then none else some i := by
  induction ds generalizing j with
  | nil => rfl
  | cons d t ih =>
    simp only [rowCells, List.map_cons, natsMin, ih (j := j + 1)]
    cases t with
    | nil => simp
    | cons d2 t2 => simp

theorem rowKeys_rowCells_max (ds : List CellData) (i j : Nat) :
    natsMax ((rowCells i j ds).map (fun p => p.1.1)) =
      if ds = [] then none else some i := by
  induction ds generalizing j with
  | nil => rfl
  | cons d t ih =>
    simp only [rowCells, List.map_cons, natsMax, ih (j := j + 1)]
    cases t with
    | nil => simp
    | cons d2 t2 => simp

theorem colKeys_rowCells_min (ds : List CellData) (i j : Nat) :
    natsMin ((rowCells i j ds).map (fun p => p.1.2)) =
      if ds = [] then none else some j := by
  induction ds generalizing j with
  | nil => rfl
  | cons d t ih =>
    simp only [rowCells, List.map_cons, natsMin, ih (j := j + 1)]
    cases t with
    | nil => simp
    | cons d2 t2 =>
      simp only [List.cons_ne_nil, if_false, ite_false]
      have hmj : Nat.min j (j + 1) = j := Nat.min_eq_left (by omega)
      simp [hmj]

theorem colKeys_rowCells_max (ds : List CellData) (i j : Nat) :
    natsMax ((rowCells i j ds).map (fun p => p.1.2)) =
      if ds = [] then none else some (j + ds.length - 1) := by
  induction ds generalizing j with
  | nil => rfl
  | cons d t ih =>
    simp only [rowCells, List.map_cons, natsMax, ih (j := j + 1)]
    cases t with
    | nil => simp
    | cons d2 t2 =>
      simp only [List.cons_ne_nil, if_false, ite_false]
      have h1 : j + 1 + (d2 :: t2).length - 1 = j + (d :: d2 :: t2).length - 1 := by
        simp
        omega
      have h2 : Nat.max j (j + 1 + (d2 :: t2).length - 1) = j + 1 + (d2 :: t2).length - 1 := by
        simp
        omega
      rw [h2, h1]

theorem natMaxEqRight (a b : Nat) (h : a ≤ b) : Nat.max a b = b :=
  max_eq_right h

theorem grid_minRow (g : List (List CellData)) (i : Nat)
    (hg : g ≠ []) (hne : ∀ rw ∈ g, rw ≠ []) :
    natsMin ((gridCells i g).map (fun p => p.1.1)) = some i := by
  induction g generalizing i with
  | nil => cases hg rfl
  | cons ds g2 ih =>
    simp only [gridCells, List.map_append]
    rw [natsMin_append, rowKeys_rowCells_min]
    rw [if_neg (hne ds (by simp))]
    cases g2 with
    | nil => simp [gridCells, natsMin]
    | cons ds2 g3 =>
      rw [ih (i := i + 1) (by simp) (fun rw2 h => hne rw2 (by simp [h]))]
      have hmi : Nat.min i (i + 1) = i := Nat.min_eq_left (by omega)
      simp [hmi]

theorem grid_maxRow (g : List (List CellData)) (i : Nat)
    (hg : g ≠ []) (hne : ∀ rw ∈ g, rw ≠ []) :
    natsMax ((gridCells i g).map (fun p => p.1.1)) = some (i + g.length - 1) := by
  induction g generalizing i with
  | nil => cases hg rfl
  | cons ds g2 ih =>
    simp only [gridCells, List.map_append]
    rw [natsMax_append, rowKeys_rowCells_max]
    rw [if_neg (hne ds (by simp))]
    cases g2 with
    | nil => simp [gridCells, natsMax]
    | cons ds2 g3 =>
      rw [ih (i := i + 1) (by simp) (fun rw2 h => hne rw2 (by simp [h]))]
      show some (Nat.max i (i + 1 + (ds2 :: g3).length - 1)) =
        some (i + (ds :: ds2 :: g3).length - 1)
      rw [natMaxEqRight _ _ (by omega)]
      congr 1
      simp only [List.length_cons]
      omega

theorem grid_minCol (g : List (List CellData)) (i : Nat)
    (hg : g ≠ []) (hne : ∀ rw ∈ g, rw ≠ []) :
    natsMin ((gridCells i g).map (fun p => p.1.2)) = some 1 := by
  induction g generalizing i with
  | nil => cases hg rfl
  | cons ds g2 ih =>
    simp only [gridCells, List.map_append]
    rw [natsMin_append, colKeys_rowCells_min]
    rw [if_neg (hne ds (by simp))]
    cases g2 with
    | nil => simp [gridCells, natsMin]
    | cons ds2 g3 =>
      rw [ih (i := i + 1) (by simp) (fun rw2 h => hne rw2 (by simp [h]))]
      simp

theorem grid_maxCol (g : List (List CellData)) (i w : Nat)
    (hg : g ≠ []) (hw : 1 ≤ w) (hrect : ∀ rw ∈ g, rw.length = w) :
    natsMax ((gridCells i g).map (fun p => p.1.2)) = some w := by
  induction g generalizing i with
  | nil => cases hg rfl
  | cons ds g2 ih =>
    have hds : ds.length = w := hrect ds (by simp)
    have hdsne : ds ≠ [] := by
      intro h
      rw [h] at hds
      simp at hds
      omega
    simp only [gridCells, List.map_append]
    rw [natsMax_append, colKeys_rowCells_max]
    rw [if_neg hdsne, hds]
    have h1 : 1 + w - 1 = w := by omega
    rw [h1]
    cases g2 with
    | nil => simp [gridCells, natsMax]
    | cons ds2 g3 =>
      rw [ih (i := i + 1) (by simp) (fun rw2 h => hrect rw2 (by simp [h]))]
      simp

/-- Dimensions of a sheet holding a written rectangular grid of positive
    width, anchored at A1. -/
theorem gridSheet_dims (nme : String) (g : List (List CellData)) (w : Nat)
    (hg : g ≠ []) (hw : 1 ≤ w) (hrect : ∀ rw ∈ g, rw.length = w) :
    (⟨nme, gridCells 1 g⟩ : Sheet).minRow = 1 ∧
    (⟨nme, gridCells 1 g⟩ : Sheet).maxRow = g.length ∧
    (⟨nme, gridCells 1 g⟩ : Sheet).minCol = 1 ∧
    (⟨nme, gridCells 1 g⟩ : Sheet).maxCol = w := by
  have hne : ∀ rw ∈ g, rw ≠ [] := by
    intro rw hmem h
    have := hrect rw hmem
    rw [h] at this
    simp at this
    omega
  have hglen : 1 ≤ g.length := by
    cases g with
    | nil => cases hg rfl
    | cons a b => simp
  refine ⟨?_, ?_, ?_, ?_⟩
  · show (natsMin ((gridCells 1 g).map (fun p => p.1.1))).getD 1 = 1
    rw [grid_minRow g 1 hg hne]
    rfl
  · show (natsMax ((gridCells 1 g).map (fun p => p.1.1))).getD 1 = g.length
    rw [grid_maxRow g 1 hg hne]
    show 1 + g.length - 1 = g.length
    omega
  · show (natsMin ((gridCells 1 g).map (fun p => p.1.2))).getD 1 = 1
    rw [grid_minCol g 1 hg hne]
    rfl
  · show (natsMax ((gridCells 1 g).map (fun p => p.1.2))).getD 1 = w
    rw [grid_maxCol g 1 w hg hw hrect]
    rfl

theorem cellAt_grid (nme : String) (g : List (List CellData)) (r c : Nat)
    (hr : 1 ≤ r) (hc : 1 ≤ c) :
    (⟨nme, gridCells 1 g⟩ : Sheet).cellAt r c =
      (g[r - 1]?.bind (fun ds => ds[c - 1]?)).bind (fun d => d.value) := by
  simp only [Sheet.cellAt]
  rw [lookupA_gridCells g 1 r c hc, if_pos hr]
  cases h : g[r - 1]?.bind (fun ds => ds[c - 1]?) with
  | some d => simp [h]
  | none => simp [h]

theorem padTo_eq_self (l : List (Option Val)) (w : Nat) (h : l.length = w) :
    padTo w l = l := by
  rw [padTo, h, Nat.sub_self]
  simp

theorem rawRow_grid (nme : String) (g : List (List CellData)) (grow : List CellData)
    (r w : Nat)
    (hminc : (⟨nme, gridCells 1 g⟩ : Sheet).minCol = 1)
    (hmaxc : (⟨nme, gridCells 1 g⟩ : Sheet).maxCol = w)
    (hr : 1 ≤ r)
    (hrow : g[r - 1]? = some grow)
    (hlen : grow.length = w) :
    (⟨nme, gridCells 1 g⟩ : Sheet).rawRow r = grow.map (fun d => blankToNone d.value) := by
  apply List.ext_getElem?
  intro jj
  rw [Sheet.rawRow, hminc, hmaxc]
  have hww : w + 1 - 1 = w := by omega
  rw [hww, List.getElem?_map, List.getElem?_map]
  by_cases hj : jj < w
  · rw [List.getElem?_range hj]
    have hjl : jj < grow.length := by omega
    rw [List.getElem?_eq_getElem hjl]
    simp only [Option.map_some']
    congr 1
    rw [cellAt_grid nme g r (1 + jj) hr (by omega), hrow]
    simp only [Option.some_bind]
    have h1 : 1 + jj - 1 = jj := by omega
    rw [h1, List.getElem?_eq_getElem hjl]
    simp
  · rw [List.getElem?_eq_none (by simp; omega), List.getElem?_eq_none (by omega)]
    simp

theorem rows0_grid (nme : String) (g : List (List CellData)) (w : Nat)
    (hg : g ≠ []) (hw : 1 ≤ w) (hrect : ∀ rw ∈ g, rw.length = w) :
    (List.range ((⟨nme, gridCells 1 g⟩ : Sheet).maxRow + 1 -
        (⟨nme, gridCells 1 g⟩ : Sheet).minRow)).map
      (fun i => trimBack Option.isNone
        ((⟨nme, gridCells 1 g⟩ : Sheet).rawRow ((⟨nme, gridCells 1 g⟩ : Sheet).minRow + i))) =
      g.map (fun grow => trimBack Option.isNone (grow.map (fun d => blankToNone d.value))) := by
  obtain ⟨hmin, hmax, hminc, hmaxc⟩ := gridSheet_dims nme g w hg hw hrect
  rw [hmin, hmax]
  have hgl : g.length + 1 - 1 = g.length := by omega
  rw [hgl]
  apply List.ext_getElem?
  intro ii
  rw [List.getElem?_map, List.getElem?_map]
  by_cases hi : ii < g.length
  · rw [List.getElem?_range hi, List.getElem?_eq_getElem hi]
    simp only [Option.map_some']
    congr 1
    have hrq : g[1 + ii - 1]? = some g[ii] := by
      have h2 : 1 + ii - 1 = ii := by omega
      rw [h2, List.getElem?_eq_getElem hi]
    rw [rawRow_grid nme g g[ii] (1 + ii) w hminc hmaxc (by omega) hrq
      (hrect _ (List.getElem_mem hi))]
  · rw [List.getElem?_eq_none (by simp; omega), List.getElem?_eq_none (by omega)]
    simp

theorem trimBack_ne_nil_of_mem {α : Type} (p : α → Bool) (l : List α) (x : α)
    (hx : x ∈ l) (hpx : p x = false) : trimBack p l ≠ [] := by
  intro h
  have h2 : l.reverse.dropWhile p = [] := by
    have := congrArg List.reverse h
    simpa [trimBack] using this
  have h3 := List.dropWhile_eq_nil_iff.mp h2
  have := h3 x (by simpa using hx)
  rw [hpx] at this
  cases this

theorem addKeys_of_nodup (ks : List String) (acc : List String)
    (h : (acc ++ ks).Nodup) : addKeys acc ks = acc ++ ks := by
  induction ks generalizing acc with
  | nil => simp [addKeys]
  | cons k t ih =>
    have hk : k ∉ acc := by
      intro hmem
      exact (List.disjoint_of_nodup_append h) hmem (by simp)
    have h2 : ((acc ++ [k]) ++ t).Nodup := by
      rw [List.append_assoc]
      simpa using h
    have h3 := ih (acc ++ [k]) h2
    simp only [addKeys, List.foldl_cons] at h3 ⊢
    rw [if_neg hk, h3]
    simp

theorem addKeys_of_subset (ks acc : List String) (h : ∀ x ∈ ks, x ∈ acc) :
    addKeys acc ks = acc := by
  induction ks with
  | nil => rfl
  | cons k t ih =>
    simp only [addKeys, List.foldl_cons]
    rw [if_pos (h k (by simp))]
    have h4 := ih (fun x hx => h x (by simp [hx]))
    simpa [addKeys] using h4

theorem foldl_addKeys_const (rest : List PyRecord) (ks : List String)
    (hkeys : ∀ row ∈ rest, row.map Prod.fst = ks) :
    rest.foldl (fun acc row => addKeys acc (row.map Prod.fst)) ks = ks := by
  induction rest with
  | nil => rfl
  | cons r t ih =>
    rw [List.foldl_cons, hkeys r (by simp)]
    rw [addKeys_of_subset ks ks (fun x hx => hx)]
    exact ih (fun row h => hkeys row (by simp [h]))

theorem collectCols_const (data : List PyRecord) (ks : List String)
    (hnodup : ks.Nodup) (hkeys : ∀ row ∈ data, row.map Prod.fst = ks) (hne : data ≠ []) :
    collectCols data = ks := by
  obtain ⟨r0, rest, rfl⟩ : ∃ r0 rest, data = r0 :: rest := by
    cases data with
    | nil => cases hne rfl
    | cons a b => exact ⟨a, b, rfl⟩
  simp only [collectCols, List.foldl_cons]
  rw [hkeys r0 (by simp)]
  have h0 : addKeys [] ks = ks := by
    have := addKeys_of_nodup ks [] (by simpa using hnodup)
    simpa using this
  rw [h0]
  exact foldl_addKeys_const rest ks (fun row h => hkeys row (by simp [h]))

theorem assocVals (row : PyRecord) (hnd : (row.map Prod.fst).Nodup) :
    (row.map Prod.fst).map (fun c => (lookupA row c).join) = row.map Prod.snd := by
  induction row with
  | nil => rfl
  | cons p t ih =>
    obtain ⟨k0, v0⟩ := p
    simp only [List.map_cons] at hnd ⊢
    rw [List.nodup_cons] at hnd
    obtain ⟨hk0, hndt⟩ := hnd
    congr 1
    · simp [lookupA]
    · have hcong : (t.map Prod.fst).map (fun c => (lookupA ((k0, v0) :: t) c).join) =
          (t.map Prod.fst).map (fun c => (lookupA t c).join) := by
        apply List.map_congr_left
        intro c hc
        have hne : k0 ≠ c := by
          intro h
          subst h
          exact hk0 hc
        simp [lookupA, hne]
      rw [hcong, ih hndt]

theorem recordsToDf_clean (data : List PyRecord) (ks : List String)
    (hnodup : ks.Nodup) (hkeys : ∀ row ∈ data, row.map Prod.fst = ks) (hne : data ≠ []) :
    recordsToDf data = ⟨ks, data.map (fun row => row.map Prod.snd)⟩ := by
  have hc := collectCols_const data ks hnodup hkeys hne
  simp only [recordsToDf, hc]
  congr 1
  apply List.map_congr_left
  intro row hrow
  rw [← hkeys row hrow]
  exact assocVals row (by rw [hkeys row hrow]; exact hnodup)

theorem cellConv (v : Option Val) :
    blankToNone (cellOfVal v).value = blankToNone v := by
  cases v with
  | none => rfl
  | some u =>
    cases u with
    | vStr s =>
      by_cases hs : s = ""
      · subst hs; rfl
      · simp [cellOfVal, blankToNone, hs]
    | vInt n => rfl
    | vBool b => rfl

theorem headerEnumFrom (ks : List String) (i : Nat) :
    (List.enumFrom i (ks.map (fun nm => some (Val.vStr nm)))).map
      (fun p => headerName p.1 p.2) = ks := by
  induction ks generalizing i with
  | nil => rfl
  | cons k t ih =>
    simp only [List.map_cons, List.enumFrom, List.map]
    congr 1
    exact ih (i + 1)

/-- Reading back a sheet written from a clean Record Set: the parsed
    DataFrame has exactly the column list of the Record Set and one data
    row per record. Clean means: all rows share the first-row (distinct,
    nonempty-named) keys and every row holds at least one value whose
    stored form is not blank. -/
theorem pdRead_written (sh : String) (data : List PyRecord) (ks : List String)
    (hnodup : ks.Nodup)
    (hkeys : ∀ row ∈ data, row.map Prod.fst = ks)
    (hnm : ∀ nm ∈ ks, nm ≠ "")
    (hnonblank : ∀ row ∈ data, ∃ pr ∈ row, blankToNone pr.2 ≠ none)
    (hempty : data = [] → ks = []) :
    (pdReadSheet (dfToSheet sh (recordsToDf data))).columns = ks ∧
    (pdReadSheet (dfToSheet sh (recordsToDf data))).rows.length = data.length := by
  by_cases hd : data = []
  · subst hd
    rw [hempty rfl]
    exact ⟨rfl, rfl⟩
  · have hdf := recordsToDf_clean data ks hnodup hkeys hd
    rw [hdf]
    have hksne : ks ≠ [] := by
      obtain ⟨r0, rest, rfl⟩ : ∃ r0 rest, data = r0 :: rest := by
        cases data with
        | nil => cases hd rfl
        | cons a b => exact ⟨a, b, rfl⟩
      obtain ⟨pr, hpr, hprv⟩ := hnonblank r0 (by simp)
      have h0 := hkeys r0 (by simp)
      intro hks
      rw [hks, List.map_eq_nil_iff] at h0
      rw [h0] at hpr
      cases hpr
    have hw1 : 1 ≤ ks.length := by
      have := List.length_pos.mpr hksne
      omega
    have hrect : ∀ rw ∈ dfGrid ⟨ks, data.map (fun row => row.map Prod.snd)⟩,
        rw.length = ks.length := by
      intro rw hmem
      rcases List.mem_cons.mp hmem with heq | hmem2
      · rw [heq]
        simp
      · obtain ⟨row, hrow, rfl⟩ := List.mem_map.mp hmem2
        obtain ⟨drow, hdrow, rfl⟩ := List.mem_map.mp hrow
        have hk := hkeys drow hdrow
        have : drow.length = ks.length := by
          rw [← hk]
          simp
        simp [this]
    have hsheq : dfToSheet sh ⟨ks, data.map (fun row => row.map Prod.snd)⟩ =
        ⟨sh, gridCells 1 (dfGrid ⟨ks, data.map (fun row => row.map Prod.snd)⟩)⟩ := rfl
    rw [hsheq]
    simp only [pdReadSheet]
    rw [rows0_grid sh _ ks.length (by simp [dfGrid]) hw1 hrect]
    -- the converted grid rows
    have hconvHdr : (ks.map (fun c => ({ value := some (.vStr c) } : CellData))).map
        (fun d => blankToNone d.value) = ks.map (fun nm => some (Val.vStr nm)) := by
      rw [List.map_map]
      apply List.map_congr_left
      intro nm hmem
      show blankToNone (some (.vStr nm)) = some (.vStr nm)
      simp [blankToNone, hnm nm hmem]
    have hconvRow : ∀ drow ∈ data,
        ((drow.map Prod.snd).map cellOfVal).map (fun d => blankToNone d.value) =
          drow.map (fun pr => blankToNone pr.2) := by
      intro drow _
      rw [List.map_map, List.map_map]
      apply List.map_congr_left
      intro pr _
      exact cellConv pr.2
    have hgridmap : (dfGrid ⟨ks, data.map (fun row => row.map Prod.snd)⟩).map
        (fun grow => trimBack Option.isNone (grow.map (fun d => blankToNone d.value))) =
        trimBack Option.isNone (ks.map (fun nm => some (Val.vStr nm))) ::
          data.map (fun drow =>
            trimBack Option.isNone (drow.map (fun pr => blankToNone pr.2))) := by
      simp only [dfGrid, List.map_cons, hconvHdr, List.map_map]
      congr 1
      apply List.map_congr_left
      intro drow hdrow
      show trimBack Option.isNone (((drow.map Prod.snd).map cellOfVal).map
        (fun d => blankToNone d.value)) = _
      rw [hconvRow drow hdrow]
    rw [hgridmap]
    have hThdr : trimBack Option.isNone (ks.map (fun nm => some (Val.vStr nm))) =
        ks.map (fun nm => some (Val.vStr nm)) := by
      apply trimBack_eq_self_of_all
      intro x hx
      obtain ⟨nm, hmm, rfl⟩ := List.mem_map.mp hx
      simp
    rw [hThdr]
    have hall : ∀ x ∈ ks.map (fun nm => some (Val.vStr nm)) ::
        data.map (fun drow => trimBack Option.isNone (drow.map (fun pr => blankToNone pr.2))),
        x.isEmpty = false := by
      intro x hx
      rcases List.mem_cons.mp hx with rfl | hmem2
      · apply isEmpty_false_of_len
        simp
        omega
      · obtain ⟨drow, hdrow, rfl⟩ := List.mem_map.mp hmem2
        obtain ⟨pr, hpr, hprv⟩ := hnonblank drow hdrow
        have hmm : blankToNone pr.2 ∈ drow.map (fun pr2 => blankToNone pr2.2) :=
          List.mem_map_of_mem _ hpr
        have hne2 := trimBack_ne_nil_of_mem Option.isNone _ _ hmm
          (by cases h2 : blankToNone pr.2 with
            | none => cases hprv h2
            | some u => rfl)
        cases hq : trimBack Option.isNone (drow.map (fun pr2 => blankToNone pr2.2)) with
        | nil => cases hne2 hq
        | cons a b => simp
    rw [trimBack_eq_self_of_all _ _ hall]
    simp only [mkDf]
    have hwidth : rowsWidth (ks.map (fun nm => some (Val.vStr nm)) ::
        data.map (fun drow => trimBack Option.isNone (drow.map (fun pr => blankToNone pr.2)))) =
        ks.length := by
      rw [rowsWidth]
      apply foldrMax_eq
      · have h2 : (ks.map (fun nm => some (Val.vStr nm))).length = ks.length := by simp
        rw [← h2]
        exact List.mem_map_of_mem _ (by simp)
      · intro x hx
        obtain ⟨l, hl, rfl⟩ := List.mem_map.mp hx
        rcases List.mem_cons.mp hl with rfl | hmem2
        · simp
        · obtain ⟨drow, hdrow, rfl⟩ := List.mem_map.mp hmem2
          have h3 := trimBack_length_le Option.isNone (drow.map (fun pr => blankToNone pr.2))
          have h4 : (drow.map (fun pr => blankToNone pr.2)).length = ks.length := by
            have hk := hkeys drow hdrow
            have : drow.length = ks.length := by
              rw [← hk]
              simp
            simp [this]
          omega
    constructor
    · show ((padTo (rowsWidth _) (ks.map (fun nm => some (Val.vStr nm)))).enum).map
        (fun p => headerName p.1 p.2) = ks
      rw [hwidth, padTo_eq_self _ _ (by simp)]
      rw [List.enum]
      exact headerEnumFrom ks 0
    · show ((data.map (fun drow => trimBack Option.isNone
        (drow.map (fun pr => blankToNone pr.2)))).map (padTo (rowsWidth _))).length =
        data.length
      simp

/-! ### Claim C4 -/

/-- C4 counterexample, in three parts, all on write-then-read of the same
    path and sheet. First: a Record Set of two rows whose second row is all
    null reads back with ONE data row, not two (the all-blank written row
    falls outside the used range, and trailing blank rows are dropped).
    Second: for a ragged Record Set the read-back column list is the
    first-appearance union a, b, not the first-row key list a. Third: a
    column named by the empty string comes back as the pandas placeholder
    Unnamed: 0, not as the given column name. -/
theorem C4_counterexample :
    (readShape (read_excel_file
        (write_excel_file [] "t.xlsx" [[("a", some (.vStr "x"))], [("a", none)]] "S1").2
        "t.xlsx" (some "S1")) = some (1, ["a"]) ∧
      ([[("a", some (.vStr "x"))], [("a", (none : Option Val))]] : List PyRecord).length = 2) ∧
    (readShape (read_excel_file (write_excel_file [] "t.xlsx" raggedData "S1").2
        "t.xlsx" (some "S1")) = some (2, ["a", "b"]) ∧
      (raggedData.headD []).map Prod.fst = ["a"]) ∧
    readShape (read_excel_file
        (write_excel_file [] "t.xlsx" [[("", some (.vStr "x"))]] "S1").2
        "t.xlsx" (some "S1")) = some (1, ["Unnamed: 0"]) := by
  refine ⟨⟨by decide, by decide⟩, ⟨by decide, by decide⟩, by decide⟩

/-- C4 as amended: write_excel_file followed by read_excel_file on the
    same path (with a supported extension) and sheet returns a row count
    equal to the Record Set length and a column list equal to the first
    first-row key insertion order, provided the Record Set is clean: every
    row has exactly the first-row keys (ks, distinct and nonempty as Python
    dict keys written to a header are), and every row carries at least one
    value that is neither null nor empty text (otherwise the written row is
    entirely blank and is dropped by the reader). -/
theorem C4_write_read_roundtrip (fs : FS) (path sh : String) (data : List PyRecord)
    (ks : List String)
    (hext : extOk path = true)
    (hnodup : ks.Nodup)
    (hkeys : ∀ row ∈ data, row.map Prod.fst = ks)
    (hnm : ∀ nm ∈ ks, nm ≠ "")
    (hnonblank : ∀ row ∈ data, ∃ pr ∈ row, blankToNone pr.2 ≠ none)
    (hempty : data = [] → ks = []) :
    ∃ res, read_excel_file (write_excel_file fs path data sh).2 path (some sh) = .ok res ∧
      res.shapeRows = data.length ∧ res.columns = ks := by
  have hlk : lookupA (write_excel_file fs path data sh).2 path =
      some ⟨[dfToSheet sh (recordsToDf data)]⟩ := lookupA_setAssoc_self fs path _
  have hpde : pandasReadExcel ⟨[dfToSheet sh (recordsToDf data)]⟩ (some sh) =
      .ok (pdReadSheet (dfToSheet sh (recordsToDf data))) := by
    by_cases hsh : sh = ""
    · subst hsh
      rfl
    · rw [pandasReadExcel, strTruthy_some_of_ne sh hsh]
      simp only [if_true, Option.getD_some, pandasReadSheetNamed]
      rw [show (⟨[dfToSheet sh (recordsToDf data)]⟩ : Workbook).findSheet sh =
        some (dfToSheet sh (recordsToDf data)) by
          simp [Workbook.findSheet, findSheetL, dfToSheet]]
  obtain ⟨hcols, hlen⟩ := pdRead_written sh data ks hnodup hkeys hnm hnonblank hempty
  rw [read_excel_file, hlk]
  simp only [hext, if_true, hpde]
  refine ⟨_, rfl, ?_, ?_⟩
  · show (pdReadSheet (dfToSheet sh (recordsToDf data))).rows.length = data.length
    exact hlen
  · exact hcols

/-- Witness for C4 as amended, on a two-column single-row Record Set. -/
theorem C4_write_read_roundtrip_witness :
    ∃ res, read_excel_file (write_excel_file []
        "t.xlsx" [[("name", some (.vStr "A")), ("age", some (.vInt 30))]] "S1").2
        "t.xlsx" (some "S1") = .ok res ∧
      res.shapeRows = ([[("name", some (.vStr "A")), ("age", some (.vInt 30))]] :
        List PyRecord).length ∧
      res.columns = ["name", "age"] :=
  C4_write_read_roundtrip [] "t.xlsx" "S1"
    [[("name", some (.vStr "A")), ("age", some (.vInt 30))]] ["name", "age"]
    (by decide) (by decide) (by decide) (by decide) (by decide) (by decide)

end ExcelMCP
